import Mathlib

/-!
Verification development for a universal-plotting-sheet application
(source: `src/main.js`).  The numeric core is shallowly embedded:

* The Angle Codec (parsing and formatting of latitude / longitude /
  bearing / distance text) is embedded as computable functions over
  `List Char` / `String`, returning exact rationals.  JavaScript numbers
  are modelled by `ℚ` on the codec side (all parsed values are finite
  decimals) and by `ℝ` on the geometry side.
* `String.prototype.trim` / `toUpperCase` are modelled by `jsTrim` /
  `Char.toUpper` on character lists; the regular expressions of
  `parseDegreesDirection`, `updateZn` and `updateA` are embedded as
  backtracking character-list parsers that mirror the regex token by
  token.  Only the digit groups need backtracking: every other optional
  token (`" *"`, `[°*]?`, `(\.\d)?`, `['‘’]?`, `[-+]?`) has a character
  class disjoint from every token that can follow it, so consuming it
  whenever it is present is exactly what the regex engine does.
* `Number.prototype.toLocaleString` is modelled for the default
  `en-US`-style locale: `.` decimal point, `,` grouping every three
  integer digits, half-away-from-zero rounding (the default `halfExpand`
  mode, on exact rationals), zero padding to `minimumIntegerDigits`.
  The formatters only ever feed it nonnegative values.
-/

namespace UPS

/-! ## Digit and string primitives -/

/-- Value of an ASCII digit character. -/
def digitVal (c : Char) : Nat := c.toNat - 48

/-- Little-endian base-10 digits of a natural number, with explicit fuel so
that the definition is structurally recursive.  `natDigitsRev n` uses fuel
`n + 1`, which is always sufficient. -/
def natDigitsRevAux : Nat → Nat → List Nat
  | 0, _ => []
  | fuel + 1, n => if n < 10 then [n] else (n % 10) :: natDigitsRevAux fuel (n / 10)

/-- Little-endian base-10 digits of a natural number. -/
def natDigitsRev (n : Nat) : List Nat := natDigitsRevAux (n + 1) n

/-- Big-endian base-10 digits of a natural number (as printed). -/
def natDigits (n : Nat) : List Nat := (natDigitsRev n).reverse

/-- Zero padding of a digit list to a minimum width
(`minimumIntegerDigits`). -/
def zeroPad (w : Nat) (ds : List Nat) : List Nat :=
  List.replicate (w - ds.length) 0 ++ ds

/-- Insert `,` after every three characters of a little-endian digit-char
list: this is `en-US` integer grouping read from the right. -/
def insertCommasRev : List Char → List Char
  | a :: b :: c :: d :: rest => a :: b :: c :: ',' :: insertCommasRev (d :: rest)
  | l => l

/-- `n.toLocaleString(undefined, {maximumFractionDigits: 0,
minimumIntegerDigits: w})` for a natural number `n`, as a character list. -/
def localeNatChars (w n : Nat) : List Char :=
  (insertCommasRev (((zeroPad w (natDigits n)).map Nat.digitChar).reverse)).reverse

/-- Half-away-from-zero rounding to an integer (the `halfExpand` rounding
mode of `Intl.NumberFormat`, the default). -/
def roundHE (q : ℚ) : ℤ := if q < 0 then -⌊-q + 1 / 2⌋ else ⌊q + 1 / 2⌋

/-- `q.toLocaleString(undefined, {minimumFractionDigits: 1,
maximumFractionDigits: 1, minimumIntegerDigits: w})` for a nonnegative
rational `q`, as a character list: the integer part with grouping and
padding, then `.`, then exactly one tenths digit. -/
def localeTenthsChars (w : Nat) (q : ℚ) : List Char :=
  let r := (roundHE (q * 10)).toNat
  localeNatChars w (r / 10) ++ ['.', Nat.digitChar (r % 10)]

/-- JavaScript `String.prototype.trim` on a character list. -/
def jsTrim (cs : List Char) : List Char :=
  ((cs.dropWhile Char.isWhitespace).reverse.dropWhile Char.isWhitespace).reverse

/-! ## Formatters (`formatDegreesMinutesDirection`, `formatDegreesDirection`
and their four wrappers, plus the normalizers of `updateA` / `updateZn`) -/

/-- `formatDegreesMinutesDirection(deg, minDegreeDigits, pos, neg)`:
truncated absolute degrees padded to `minDegreeDigits`, `° `, the minutes
`(|deg| - trunc |deg|) * 60` with two integer digits and one fractional
digit, `’`, and a direction letter for strictly positive / strictly
negative values (nothing for zero). -/
def formatDegreesMinutesDirectionChars (deg : ℚ) (minDegreeDigits : Nat)
    (pos neg : Char) : List Char :=
  let absDeg := |deg|
  let truncAbsDeg : Nat := (⌊absDeg⌋).toNat
  localeNatChars minDegreeDigits truncAbsDeg ++ ['°', ' ']
    ++ localeTenthsChars 2 ((absDeg - (truncAbsDeg : ℚ)) * 60) ++ ['’']
    ++ (if 0 < deg then [' ', pos] else if deg < 0 then [' ', neg] else [])

/-- `formatDegreesDirection(deg, minDigits, pos, neg)`: `|deg|` rounded to
an integer (`maximumFractionDigits: 0`) and padded to `minDigits`, `°`, and
a direction letter for strictly positive / strictly negative values
(nothing for zero). -/
def formatDegreesDirectionChars (deg : ℚ) (minDigits : Nat)
    (pos neg : Char) : List Char :=
  localeNatChars minDigits ((roundHE |deg|).toNat) ++ ['°']
    ++ (if 0 < deg then [' ', pos] else if deg < 0 then [' ', neg] else [])

/-- `formatLatitude`: "DD° MM.M’ N". -/
def formatLatitude (deg : ℚ) : String :=
  ⟨formatDegreesMinutesDirectionChars deg 2 'N' 'S'⟩

/-- `formatIntegerLatitude`: "DD° N". -/
def formatIntegerLatitude (deg : ℚ) : String :=
  ⟨formatDegreesDirectionChars deg 2 'N' 'S'⟩

/-- `formatLongitude`: "DDD° MM.M’ E". -/
def formatLongitude (deg : ℚ) : String :=
  ⟨formatDegreesMinutesDirectionChars deg 3 'E' 'W'⟩

/-- `formatIntegerLongitude`: "DDD° E". -/
def formatIntegerLongitude (deg : ℚ) : String :=
  ⟨formatDegreesDirectionChars deg 3 'E' 'W'⟩

/-- The normalized text written back by `updateA`:
`_a.toLocaleString(undefined, {minimumFractionDigits: 1,
maximumFractionDigits: 1}) + "’"`. -/
def formatA (q : ℚ) : String := ⟨localeTenthsChars 1 q ++ ['’']⟩

/-- The normalized text written back by `updateZn`:
`_Zn.toLocaleString(undefined, {minimumIntegerDigits: 3,
maximumFractionDigits: 0}) + "°"`. -/
def formatZn (d : Nat) : String := ⟨localeNatChars 3 d ++ ['°']⟩

/-! ## The `parseDegreesDirection` regex as a character-list parser -/

/-- Big-endian numeric value of a run of digit characters
(`Number(m[k])` on a digit string). -/
def digitsVal (cs : List Char) : Nat :=
  cs.foldl (fun acc c => acc * 10 + digitVal c) 0

/-- The regex token `" *"` (a run of space characters; the regexes use
literal spaces, not a whitespace class). -/
def skipSpaces : List Char → List Char
  | [] => []
  | c :: rest => if c = ' ' then skipSpaces rest else c :: rest

/-- The character class `[°*]` of the degree-mark token. -/
def isDegreeMark (c : Char) : Bool := c = '°' ∨ c = '*'

/-- The character class of the minute-mark token `['‘’]`: an ASCII
apostrophe (code 39) or a single curly quote. -/
def isMinuteMark (c : Char) : Bool := c = Char.ofNat 39 ∨ c = '‘' ∨ c = '’'

/-- Consume one optional character matching `test` (a regex `X?` token whose
class is disjoint from every token that can follow it, so consuming
whenever possible is exact). -/
def consumeOptChar (test : Char → Bool) : List Char → List Char
  | [] => []
  | c :: rest => if test c then rest else c :: rest

/-- First defined value in a list of candidate results; models regex
backtracking (candidates are ordered the way the regex engine tries
them). -/
def firstSome {α : Type} : List (Option α) → Option α
  | [] => none
  | some a :: _ => some a
  | none :: rest => firstSome rest

/-- All ways the greedy group `\d{1,maxLen}` can split the input, longest
first, each paired with the unconsumed remainder. -/
def digitPrefixes (maxLen : Nat) (cs : List Char) : List (List Char × List Char) :=
  let n := min maxLen (cs.takeWhile Char.isDigit).length
  (List.range n).map fun i => (cs.take (n - i), cs.drop (n - i))

/-- The optional fraction token `(\.\d)?` of the minutes group: consumed
exactly when a dot followed by a digit is present. -/
def fracCandidate (cs : List Char) : ℚ × List Char :=
  match cs with
  | c1 :: c2 :: rest =>
    if c1 = '.' ∧ c2.isDigit then ((digitVal c2 : ℚ) / 10, rest) else (0, cs)
  | _ => (0, cs)

/-- Candidate parses of the minutes part of the regex
(`" *(\d{1,2}(\.\d)?) *['‘’]?"` when `withMinutes`, else the empty capture
groups), in backtracking order; each candidate is the minutes value and the
remainder. -/
def minuteCandidates (withMinutes : Bool) (cs : List Char) : List (ℚ × List Char) :=
  if withMinutes then
    (digitPrefixes 2 (skipSpaces cs)).map fun p =>
      let fr := fracCandidate p.2
      ((digitsVal p.1 : ℚ) + fr.1, consumeOptChar isMinuteMark (skipSpaces fr.2))
  else [(0, cs)]

/-- First alternative of the `parseDegreesDirection` regex
(`DD°N` form): degrees, optional spaces, optional degree mark, minutes,
optional spaces, then a direction letter and end of input.  Returns the
unsigned magnitude and whether the direction letter is the positive one. -/
def ddnBranch (maxDigits : Nat) (pos neg : Char) (withMinutes : Bool)
    (cs : List Char) : Option (ℚ × Bool) :=
  firstSome <| (digitPrefixes maxDigits cs).map fun p =>
    let rest := consumeOptChar isDegreeMark (skipSpaces p.2)
    firstSome <| (minuteCandidates withMinutes rest).map fun mc =>
      match skipSpaces mc.2 with
      | [] => none
      | c :: s =>
        if s = [] then
          if c = pos then some ((digitsVal p.1 : ℚ) + mc.1 / 60, true)
          else if c = neg then some ((digitsVal p.1 : ℚ) + mc.1 / 60, false)
          else none
        else none

/-- Second alternative of the `parseDegreesDirection` regex (`+DD°` form):
optional sign, optional spaces, degrees, optional spaces, optional degree
mark, minutes, then end of input. -/
def signBranch (maxDigits : Nat) (withMinutes : Bool)
    (cs : List Char) : Option (ℚ × Bool) :=
  let sp : Bool × List Char :=
    match cs with
    | [] => (true, [])
    | c :: rest =>
      if c = '-' then (false, rest)
      else if c = '+' then (true, rest)
      else (true, c :: rest)
  firstSome <| (digitPrefixes maxDigits (skipSpaces sp.2)).map fun p =>
    let rest := consumeOptChar isDegreeMark (skipSpaces p.2)
    firstSome <| (minuteCandidates withMinutes rest).map fun mc =>
      if mc.2 = [] then some ((digitsVal p.1 : ℚ) + mc.1 / 60, sp.1)
      else none

/-- `parseDegreesDirection(s, maxDigits, maxMagnitude, pos, neg,
withMinutes)`: trim and case-fold, empty parses to zero, otherwise match
the two-alternative regex (first alternative preferred), reject magnitudes
above `maxMagnitude`, and fold the direction into the sign. -/
def parseDegreesDirection (s : String) (maxDigits : Nat) (maxMagnitude : ℚ)
    (pos neg : Char) (withMinutes : Bool) : Option ℚ :=
  let t := (jsTrim s.toList).map Char.toUpper
  if t = [] then some 0
  else
    match (ddnBranch maxDigits pos neg withMinutes t).orElse
        (fun _ => signBranch maxDigits withMinutes t) with
    | none => none
    | some mb =>
      if maxMagnitude < mb.1 then none
      else some (if mb.2 then mb.1 else -mb.1)

/-- `parseIntegerLatitude`: two degree digits at most, magnitude at most
89, letters N/S. -/
def parseIntegerLatitude (s : String) : Option ℚ :=
  parseDegreesDirection s 2 89 'N' 'S' false

/-- `parseIntegerLongitude`: three degree digits at most, magnitude at most
180, letters E/W. -/
def parseIntegerLongitude (s : String) : Option ℚ :=
  parseDegreesDirection s 3 180 'E' 'W' false

/-- `parseLongitude`: like `parseIntegerLongitude` but with a minutes
group. -/
def parseLongitude (s : String) : Option ℚ :=
  parseDegreesDirection s 3 180 'E' 'W' true

/-! ## The bearing and distance field parsers (`updateZn`, `updateA`) -/

/-- The regex `^(\d{1,3}) *°?$` of `updateZn` on trimmed input: the digit
run (1 to 3 digits; a longer run can never match, because a leftover digit
matches neither `" *"` nor `°`), optional spaces, optional degree mark. -/
def znMatch (cs : List Char) : Option Nat :=
  let ds := cs.takeWhile Char.isDigit
  if ds.length = 0 ∨ 3 < ds.length then none
  else if consumeOptChar isDegreeMark (skipSpaces (cs.dropWhile Char.isDigit)) = [] then
    some (digitsVal ds)
  else none

/-- The bearing accepted by `updateZn` for a given input text, in integer
degrees: empty parses to zero, otherwise the regex must match and the
value must not exceed 360. -/
def parseZnDeg (s : String) : Option Nat :=
  let t := jsTrim s.toList
  if t = [] then some 0
  else
    match znMatch t with
    | none => none
    | some d => if 360 < d then none else some d

/-- The regex `^(\d+(\.\d+)?) *['‘’]?$` of `updateA` on trimmed input,
returning the unsigned distance value (`Number(m[1])`). -/
def parseANum (s : String) : Option ℚ :=
  let cs := jsTrim s.toList
  let ds := cs.takeWhile Char.isDigit
  if ds.length = 0 then none
  else
    let fr : Option (ℚ × List Char) :=
      match cs.dropWhile Char.isDigit with
      | [] => some (0, [])
      | c :: rest2 =>
        if c = '.' then
          let fs := rest2.takeWhile Char.isDigit
          if fs.length = 0 then none
          else some ((digitsVal fs : ℚ) / 10 ^ fs.length, rest2.dropWhile Char.isDigit)
        else some (0, c :: rest2)
    match fr with
    | none => none
    | some f =>
      if consumeOptChar isMinuteMark (skipSpaces f.2) = [] then
        some ((digitsVal ds : ℚ) + f.1)
      else none

/-! ## IEEE-style number semantics for the Intersection Engine

The engine divides by differences that can be zero, and JavaScript then
produces `Infinity` / `-Infinity` / `NaN` rather than an error; the later
`isNaN` guards and viewport comparisons depend on those values.  `JSVal`
models a JavaScript number as either a finite real or one of the three
special values.  Signed zeros need no separate case: every zero
denominator in the engine arises as `x - x` of finite doubles, which is
`+0` in JavaScript, so division by such a zero takes the sign of the
numerator. -/

inductive JSVal : Type where
  | fin (x : ℝ)
  | posInf
  | negInf
  | nan

namespace JSVal

/-- IEEE negation. -/
noncomputable def neg : JSVal → JSVal
  | fin x => fin (-x)
  | posInf => negInf
  | negInf => posInf
  | nan => nan

/-- IEEE addition. -/
noncomputable def add : JSVal → JSVal → JSVal
  | fin a, fin b => fin (a + b)
  | fin _, posInf => posInf
  | fin _, negInf => negInf
  | fin _, nan => nan
  | posInf, fin _ => posInf
  | posInf, posInf => posInf
  | posInf, negInf => nan
  | posInf, nan => nan
  | negInf, fin _ => negInf
  | negInf, posInf => nan
  | negInf, negInf => negInf
  | negInf, nan => nan
  | nan, _ => nan

/-- IEEE subtraction (`a - b = a + (-b)` exactly). -/
noncomputable def sub (a b : JSVal) : JSVal := add a (neg b)

section
open Classical

/-- IEEE multiplication; zero times an infinity is `NaN`. -/
noncomputable def mul : JSVal → JSVal → JSVal
  | fin a, fin b => fin (a * b)
  | fin a, posInf => if a = 0 then nan else if 0 < a then posInf else negInf
  | fin a, negInf => if a = 0 then nan else if 0 < a then negInf else posInf
  | fin _, nan => nan
  | posInf, fin b => if b = 0 then nan else if 0 < b then posInf else negInf
  | posInf, posInf => posInf
  | posInf, negInf => negInf
  | posInf, nan => nan
  | negInf, fin b => if b = 0 then nan else if 0 < b then negInf else posInf
  | negInf, posInf => negInf
  | negInf, negInf => posInf
  | negInf, nan => nan
  | nan, _ => nan

/-- IEEE division; a finite nonzero value divided by (positive) zero is a
signed infinity, zero by zero is `NaN`, infinities by each other are
`NaN`. -/
noncomputable def div : JSVal → JSVal → JSVal
  | fin a, fin b =>
    if b = 0 then (if a = 0 then nan else if 0 < a then posInf else negInf)
    else fin (a / b)
  | fin _, posInf => fin 0
  | fin _, negInf => fin 0
  | fin _, nan => nan
  | posInf, fin b => if 0 ≤ b then posInf else negInf
  | posInf, posInf => nan
  | posInf, negInf => nan
  | posInf, nan => nan
  | negInf, fin b => if 0 ≤ b then negInf else posInf
  | negInf, posInf => nan
  | negInf, negInf => nan
  | negInf, nan => nan
  | nan, _ => nan

/-- IEEE `<`: false whenever `NaN` is involved. -/
noncomputable def lt : JSVal → JSVal → Bool
  | fin a, fin b => if a < b then true else false
  | fin _, posInf => true
  | fin _, negInf => false
  | fin _, nan => false
  | posInf, _ => false
  | negInf, fin _ => true
  | negInf, posInf => true
  | negInf, negInf => false
  | negInf, nan => false
  | nan, _ => false

end

/-- JavaScript `isNaN`. -/
def isNaN : JSVal → Bool
  | nan => true
  | _ => false

end JSVal

/-! ## Projection model and Intersection Engine -/

/-- `radians(deg) = deg / 180 * Math.PI`. -/
noncomputable def radians (deg : ℝ) : ℝ := deg / 180 * Real.pi

/-- A line of position as stored in `_lops`: intercept distance `a` in
nautical miles (signed), azimuth `Zn` in radians, assumed position in
degrees. -/
structure LOP where
  a : ℝ
  Zn : ℝ
  aLat : ℝ
  aLon : ℝ

/-- `rhumbPoint(lat, lon, Zn, a)`: the distance is converted to minutes of
longitude by `a / cos(radians(lat))` — a JavaScript division, infinite at
`cos = 0` — and the returned point is
`(lat + cos(Zn) * a / 60, lon + sin(Zn) * aInLon / 60)`. -/
noncomputable def rhumbPoint (lat lon Zn a : ℝ) : JSVal × JSVal :=
  let aInLon := JSVal.div (.fin a) (.fin (Real.cos (radians lat)))
  (.fin (lat + Real.cos Zn * a / 60),
   JSVal.add (.fin lon) (JSVal.div (JSVal.mul (.fin (Real.sin Zn)) aInLon) (.fin 60)))

/-- The linear-equation coefficients the engine computes for one LOP in
`redraw`: two auxiliary points at azimuth offsets `±2π/6` and distance
`2a`, then `m = (b.lat - a.lat) / (b.lon - a.lon)` and
`b = a.lat - m * a.lon`. -/
noncomputable def lopCoeffs (lop : LOP) : JSVal × JSVal :=
  let pa := rhumbPoint lop.aLat lop.aLon (lop.Zn + 2 * Real.pi / 6) (2 * lop.a)
  let pb := rhumbPoint lop.aLat lop.aLon (lop.Zn - 2 * Real.pi / 6) (2 * lop.a)
  let m := JSVal.div (JSVal.sub pb.1 pa.1) (JSVal.sub pb.2 pa.2)
  (m, JSVal.sub pa.1 (JSVal.mul m pa.2))

/-- The same derivation with the ±120° offsets the specification describes
(`2π/3` instead of the source's `2π/6`); named after the spec for
comparison with `lopCoeffs`. -/
noncomputable def lopCoeffsSpecOneTwenty (lop : LOP) : JSVal × JSVal :=
  let pa := rhumbPoint lop.aLat lop.aLon (lop.Zn + 2 * Real.pi / 3) (2 * lop.a)
  let pb := rhumbPoint lop.aLat lop.aLon (lop.Zn - 2 * Real.pi / 3) (2 * lop.a)
  let m := JSVal.div (JSVal.sub pb.1 pa.1) (JSVal.sub pb.2 pa.2)
  (m, JSVal.sub pa.1 (JSVal.mul m pa.2))

/-- The real-valued latitude of `rhumbPoint` (always finite). -/
noncomputable def rhumbLatR (lat Zn a : ℝ) : ℝ := lat + Real.cos Zn * a / 60

/-- The real-valued longitude of `rhumbPoint` in the nondegenerate case
`cos (radians lat) ≠ 0`. -/
noncomputable def rhumbLonR (lat lon Zn a : ℝ) : ℝ :=
  lon + Real.sin Zn * (a / Real.cos (radians lat)) / 60

/-- The real value of the slope the engine fits
(`(b.lat - a.lat) / (b.lon - a.lon)` over the two auxiliary points), in
the nondegenerate case where both points are finite and distinct in
longitude. -/
noncomputable def lopM (l : LOP) : ℝ :=
  (rhumbLatR l.aLat (l.Zn - 2 * Real.pi / 6) (2 * l.a)
      - rhumbLatR l.aLat (l.Zn + 2 * Real.pi / 6) (2 * l.a))
    / (rhumbLonR l.aLat l.aLon (l.Zn - 2 * Real.pi / 6) (2 * l.a)
      - rhumbLonR l.aLat l.aLon (l.Zn + 2 * Real.pi / 6) (2 * l.a))

/-- The real value of the intercept the engine fits
(`a.lat - m * a.lon`). -/
noncomputable def lopB (l : LOP) : ℝ :=
  rhumbLatR l.aLat (l.Zn + 2 * Real.pi / 6) (2 * l.a)
    - lopM l * rhumbLonR l.aLat l.aLon (l.Zn + 2 * Real.pi / 6) (2 * l.a)

/-- The sheet frame as rebuilt by `setCanvasDimensions` before the engine
runs: pixel size, and the center parsed from the two center fields. -/
structure Sheet where
  width : ℝ
  height : ℝ
  ctrLat : ℝ
  ctrLon : ℝ

/-- `_latScale = (_sheetSize.height - 80) / 4`. -/
noncomputable def latScaleOf (sh : Sheet) : ℝ := (sh.height - 80) / 4

/-- `_lonScale = _latScale * Math.cos(radians(_ctrLat))`. -/
noncomputable def lonScaleOf (sh : Sheet) : ℝ :=
  latScaleOf sh * Real.cos (radians sh.ctrLat)

/-- `project(lat, lon)` on engine values:
`(w/2 + (lon - ctrLon) * lonScale, h/2 + (ctrLat - lat) * latScale)`. -/
noncomputable def projectJS (sh : Sheet) (lat lon : JSVal) : JSVal × JSVal :=
  (JSVal.add (.fin (sh.width / 2))
     (JSVal.mul (JSVal.sub lon (.fin sh.ctrLon)) (.fin (lonScaleOf sh))),
   JSVal.add (.fin (sh.height / 2))
     (JSVal.mul (JSVal.sub (.fin sh.ctrLat) lat) (.fin (latScaleOf sh))))

/-- The body of the pairwise intersection loop in `redraw` for one pair of
coefficient records `ci`, `cj` (`i < j`): solve
`lonIntercept = (cj.b - ci.b) / (ci.m - cj.m)`, skip on `isNaN`, solve
`latIntercept = ci.m * lonIntercept + ci.b`, skip on `isNaN`, project,
skip when outside the viewport rectangle, else record the intersection
(center-relative screen offset and geographic coordinates). -/
noncomputable def pairCandidate (sh : Sheet) (ci cj : JSVal × JSVal) :
    Option (JSVal × JSVal × JSVal × JSVal) :=
  let lonIntercept := JSVal.div (JSVal.sub cj.2 ci.2) (JSVal.sub ci.1 cj.1)
  if lonIntercept.isNaN then none
  else
    let latIntercept := JSVal.add (JSVal.mul ci.1 lonIntercept) ci.2
    if latIntercept.isNaN then none
    else
      let pt := projectJS sh latIntercept lonIntercept
      if JSVal.lt pt.1 (.fin 0) || JSVal.lt pt.2 (.fin 0)
          || JSVal.lt (.fin sh.width) pt.1 || JSVal.lt (.fin sh.height) pt.2 then
        none
      else
        some (JSVal.sub pt.1 (.fin (sh.width / 2)),
              JSVal.sub pt.2 (.fin (sh.height / 2)), latIntercept, lonIntercept)

/-- All unordered pairs of a list in the double-loop order of `redraw`
(`i` outer, `j = i+1 …` inner). -/
def pairsOf {α : Type} : List α → List (α × α)
  | [] => []
  | x :: rest => (rest.map fun y => (x, y)) ++ pairsOf rest

/-- `_intersections` as recomputed by `redraw`: coefficients for every LOP,
then every pair `i < j` in loop order, keeping the surviving candidates. -/
noncomputable def intersectionsOf (sh : Sheet) (lops : List LOP) :
    List (JSVal × JSVal × JSVal × JSVal) :=
  (pairsOf (lops.map lopCoeffs)).filterMap fun p => pairCandidate sh p.1 p.2

/-! ## Pointer-hover coordinate readout (`updateCoordsDisplay`) -/

/-- One element of `_intersections` as the readout uses it:
center-relative screen offset and geographic coordinates. -/
structure Inter where
  x : ℝ
  y : ℝ
  lat : ℝ
  lon : ℝ

section
open Classical

/-- The snap loop of `updateCoordsDisplay`: starting from `null`, every
intersection whose squared distance to the cursor is at most 100 (10
pixels) overwrites `snappedTo`. -/
noncomputable def snapTarget (mx my : ℝ) (ints : List Inter) : Option Inter :=
  ints.foldl
    (fun acc it =>
      if (mx - it.x) ^ 2 + (my - it.y) ^ 2 > 100 then acc else some it)
    none

/-- The within-10-pixels test, as a predicate (the complement of the
`dSqrd > 100` early return). -/
noncomputable def within10 (mx my : ℝ) (it : Inter) : Bool :=
  if (mx - it.x) ^ 2 + (my - it.y) ^ 2 ≤ 100 then true else false

end

/-- The geographic coordinate pair shown by `updateCoordsDisplay` for a
center-relative cursor position `(mx, my)`: the snapped intersection's
screen offset if any, else the raw cursor, converted by
`lat = -y / _latScale + _ctrLat`, `lon = x / _lonScale + _ctrLon` and then
fed to `formatLatitude` / `formatLongitude`. -/
noncomputable def displayedGeo (latScale lonScale ctrLat ctrLon mx my : ℝ)
    (ints : List Inter) : ℝ × ℝ :=
  match snapTarget mx my ints with
  | some it => (-it.y / latScale + ctrLat, it.x / lonScale + ctrLon)
  | none => (-my / latScale + ctrLat, mx / lonScale + ctrLon)

/-! ## Session state and event handlers (for locality and invariant claims)

The process-wide state touched by the field handlers: the parsed center,
the sheet frame, the committed LOPs, the recomputed intersections, the
draft LOP, and per-field texts and error flags.  Handlers take the typed
field text as an argument and return the state after the `onchange`
handler runs (the window size is a parameter of the handlers that
redraw). -/

/-- `_draftLOP`: each field is `none` when unset or invalid
(`undefined`), `some v` when a value is stored. -/
structure DraftLOP where
  a : Option ℚ
  Zn : Option ℝ
  aLat : Option ℚ
  aLon : Option ℚ

/-- The session state. -/
structure AppState where
  ctrLat : ℚ
  ctrLon : ℚ
  latScale : ℝ
  lonScale : ℝ
  sheetW : ℝ
  sheetH : ℝ
  lops : List LOP
  inters : List (JSVal × JSVal × JSVal × JSVal)
  draft : DraftLOP
  ctrLatText : String
  ctrLonText : String
  aText : String
  znText : String
  aLatText : String
  aLonText : String
  ctrLatErr : Bool
  ctrLonErr : Bool
  aErr : Bool
  znErr : Bool
  aLatErr : Bool
  aLonErr : Bool

/-- `setCanvasDimensions()`: store the sheet size and derive
`_latScale = (height - 80) / 4` and
`_lonScale = _latScale * cos(radians(_ctrLat))`. -/
noncomputable def setCanvasDimensionsS (w h : ℝ) (s : AppState) : AppState :=
  { s with
    sheetW := w, sheetH := h,
    latScale := (h - 80) / 4,
    lonScale := (h - 80) / 4 * Real.cos (radians (s.ctrLat : ℝ)) }

/-- `redraw()`: resize, then recompute `_intersections` from the current
LOPs (the drawing calls have no state effect beyond that). -/
noncomputable def redrawS (w h : ℝ) (s : AppState) : AppState :=
  let s1 := setCanvasDimensionsS w h s
  { s1 with
    inters := intersectionsOf ⟨s1.sheetW, s1.sheetH, (s1.ctrLat : ℝ), (s1.ctrLon : ℝ)⟩ s1.lops }

/-- `updateCenterLatitude()`: on parse failure flag the field and return;
on success write the normalized text back, store the value and redraw. -/
noncomputable def updateCenterLatitudeS (t : String) (w h : ℝ) (s : AppState) : AppState :=
  match parseIntegerLatitude t with
  | none => { s with ctrLatErr := true, ctrLatText := t }
  | some v => redrawS w h { s with ctrLat := v, ctrLatText := formatIntegerLatitude v }

/-- `updateCenterLongitude()`. -/
noncomputable def updateCenterLongitudeS (t : String) (w h : ℝ) (s : AppState) : AppState :=
  match parseIntegerLongitude t with
  | none => { s with ctrLonErr := true, ctrLonText := t }
  | some v => redrawS w h { s with ctrLon := v, ctrLonText := formatIntegerLongitude v }

/-- `updateA()`: empty input stores zero; a regex failure flags the field
and unsets the draft value; success normalizes the text and stores the
value signed by the Toward/Away selector. -/
noncomputable def updateAS (t : String) (dirToward : Bool) (s : AppState) : AppState :=
  if jsTrim t.toList = [] then { s with draft.a := some 0, aText := t }
  else
    match parseANum t with
    | none => { s with aErr := true, draft.a := none, aText := t }
    | some q => { s with aText := formatA q, draft.a := some (if dirToward then q else -q) }

/-- `updateZn()`: empty input stores zero; a regex failure or a value above
360 flags the field and unsets the draft azimuth; success normalizes the
text and stores the azimuth in radians. -/
noncomputable def updateZnS (t : String) (s : AppState) : AppState :=
  if jsTrim t.toList = [] then { s with draft.Zn := some 0, znText := t }
  else
    match parseZnDeg t with
    | none => { s with znErr := true, draft.Zn := none, znText := t }
    | some d => { s with znText := formatZn d, draft.Zn := some (radians (d : ℝ)) }

/-- `updateALat()`. -/
noncomputable def updateALatS (t : String) (s : AppState) : AppState :=
  match parseIntegerLatitude t with
  | none => { s with aLatErr := true, draft.aLat := none, aLatText := t }
  | some v => { s with draft.aLat := some v, aLatText := formatIntegerLatitude v }

/-- `updateALon()`: the integer parser first, the minutes parser as
fallback. -/
noncomputable def updateALonS (t : String) (s : AppState) : AppState :=
  match (parseIntegerLongitude t).orElse (fun _ => parseLongitude t) with
  | none => { s with aLonErr := true, draft.aLon := none, aLonText := t }
  | some v => { s with draft.aLon := some v, aLonText := formatLongitude v }

/-- The SheetFrame invariant: `_lonScale` equals `_latScale` times the
cosine of the current center latitude. -/
def ScaleInvariant (s : AppState) : Prop :=
  s.lonScale = s.latScale * Real.cos (radians (s.ctrLat : ℝ))

/-! ## Concrete instances used by witnesses and counterexamples -/

/-- A concrete session state (everything zeroed / empty). -/
noncomputable def stateZero : AppState where
  ctrLat := 0
  ctrLon := 0
  latScale := 0
  lonScale := 0
  sheetW := 0
  sheetH := 0
  lops := []
  inters := []
  draft := ⟨none, none, none, none⟩
  ctrLatText := ""
  ctrLonText := ""
  aText := ""
  znText := ""
  aLatText := ""
  aLonText := ""
  ctrLatErr := false
  ctrLonErr := false
  aErr := false
  znErr := false
  aLatErr := false
  aLonErr := false

/-- A concrete state satisfying the scale invariant
(`lonScale = 100 * cos 0 = 100`). -/
noncomputable def stateInv : AppState :=
  { stateZero with latScale := 100, lonScale := 100 }

/-- A concrete sheet: 1000 × 480 device-independent pixels centered on the
origin (`latScale = 100`). -/
noncomputable def sheetZero : Sheet where
  width := 1000
  height := 480
  ctrLat := 0
  ctrLon := 0

/-- LOP at the equator and prime meridian, azimuth 0, distance 30 NM. -/
noncomputable def lopNorth : LOP where
  a := 30
  Zn := 0
  aLat := 0
  aLon := 0

/-- A second due-north LOP sharing the azimuth and assumed latitude of
`lopNorth` but displaced in longitude and distance. -/
noncomputable def lopNorthB : LOP where
  a := 40
  Zn := 0
  aLat := 0
  aLon := 5

/-- First LOP of the identical-azimuth counterexample: azimuth 45°
(`π/4`), assumed position (0°, 100°E), distance −4242.6 NM (Away). -/
noncomputable def lopParA : LOP where
  a := -4242.6
  Zn := Real.pi / 4
  aLat := 0
  aLon := 100

/-- Second LOP of the identical-azimuth counterexample: same azimuth 45°,
assumed position (60°N, 80°E), same distance. -/
noncomputable def lopParB : LOP where
  a := -4242.6
  Zn := Real.pi / 4
  aLat := 60
  aLon := 80

/-- A recorded intersection at the sheet center. -/
noncomputable def interAtCenter : Inter where
  x := 0
  y := 0
  lat := 0
  lon := 0

/-- A recorded intersection 8 pixels to the right of the sheet center
(geographic longitude 8 with unit scales and center at the origin). -/
noncomputable def interRight : Inter where
  x := 8
  y := 0
  lat := 0
  lon := 8

/-- Little-endian value of a digit list (used to state correctness of
`natDigitsRev`). -/
def natOfDigitsRev : List Nat → Nat
  | [] => 0
  | d :: rest => d + 10 * natOfDigitsRev rest

/-! # Theorems -/

/-! ## Digit-character facts -/

theorem digitChar_isDigit : ∀ d : Nat, d < 10 → (Nat.digitChar d).isDigit = true := by
  decide

theorem digitVal_digitChar : ∀ d : Nat, d < 10 → digitVal (Nat.digitChar d) = d := by
  decide

theorem digitChar_toUpper : ∀ d : Nat, d < 10 →
    (Nat.digitChar d).toUpper = Nat.digitChar d := by
  decide

theorem digitChar_not_ws : ∀ d : Nat, d < 10 →
    (Nat.digitChar d).isWhitespace = false := by
  decide

theorem digitChar_ne_space : ∀ d : Nat, d < 10 → ¬(Nat.digitChar d = ' ') := by
  decide

theorem digitChar_not_degreeMark : ∀ d : Nat, d < 10 →
    isDegreeMark (Nat.digitChar d) = false := by
  decide

theorem digitChar_not_minuteMark : ∀ d : Nat, d < 10 →
    isMinuteMark (Nat.digitChar d) = false := by
  decide

theorem digitChar_ne_dot : ∀ d : Nat, d < 10 → ¬(Nat.digitChar d = '.') := by
  decide

theorem digitChar_ne_degreeSign : ∀ d : Nat, d < 10 → ¬(Nat.digitChar d = '°') := by
  decide

theorem digitChar_ne_star : ∀ d : Nat, d < 10 → ¬(Nat.digitChar d = '*') := by
  decide

theorem digitChar_ne_apos : ∀ d : Nat, d < 10 → ¬(Nat.digitChar d = Char.ofNat 39) := by
  decide

theorem digitChar_ne_lq : ∀ d : Nat, d < 10 → ¬(Nat.digitChar d = '‘') := by
  decide

theorem digitChar_ne_rq : ∀ d : Nat, d < 10 → ¬(Nat.digitChar d = '’') := by
  decide

theorem digitChar_ne_dirLetter : ∀ d : Nat, d < 10 →
    ¬(Nat.digitChar d = 'N') ∧ ¬(Nat.digitChar d = 'S') ∧
    ¬(Nat.digitChar d = 'E') ∧ ¬(Nat.digitChar d = 'W') := by
  decide

/-! ## Decimal digits of a natural number -/

theorem natDigitsRevAux_irrel : ∀ f1 f2 n : Nat, n < f1 → n < f2 →
    natDigitsRevAux f1 n = natDigitsRevAux f2 n := by
  intro f1
  induction f1 with
  | zero => omega
  | succ f ih =>
    intro f2 n h1 h2
    cases f2 with
    | zero => omega
    | succ g =>
      simp only [natDigitsRevAux]
      by_cases h10 : n < 10
      · simp [h10]
      · simp only [h10, if_false]
        rw [ih g (n / 10) (by omega) (by omega)]

theorem natDigitsRev_unfold (n : Nat) :
    natDigitsRev n = if n < 10 then [n] else (n % 10) :: natDigitsRev (n / 10) := by
  show natDigitsRevAux (n + 1) n = _
  rw [show natDigitsRevAux (n + 1) n
      = if n < 10 then [n] else (n % 10) :: natDigitsRevAux n (n / 10) from rfl]
  by_cases h10 : n < 10
  · simp [h10]
  · simp only [h10, if_false]
    rw [natDigitsRevAux_irrel n (n / 10 + 1) (n / 10) (by omega) (by omega)]
    rfl

theorem natOfDigitsRev_natDigitsRev (n : Nat) :
    natOfDigitsRev (natDigitsRev n) = n := by
  induction n using Nat.strong_induction_on with
  | _ n ih =>
    rw [natDigitsRev_unfold]
    by_cases h10 : n < 10
    · simp [h10, natOfDigitsRev]
    · simp only [h10, if_false, natOfDigitsRev]
      rw [ih (n / 10) (by omega)]
      omega

theorem natDigitsRev_all_lt10 (n : Nat) : ∀ d ∈ natDigitsRev n, d < 10 := by
  induction n using Nat.strong_induction_on with
  | _ n ih =>
    rw [natDigitsRev_unfold]
    by_cases h10 : n < 10
    · simp [h10]
    · simp only [h10, if_false, List.mem_cons]
      rintro d (rfl | hd)
      · omega
      · exact ih (n / 10) (by omega) d hd

theorem natDigits_lt10 (n : Nat) (h : n < 10) : natDigits n = [n] := by
  simp [natDigits, natDigitsRev_unfold, h]

theorem natDigits_two (n : Nat) (h1 : 10 ≤ n) (h2 : n < 100) :
    natDigits n = [n / 10, n % 10] := by
  unfold natDigits
  rw [natDigitsRev_unfold, if_neg (by omega), natDigitsRev_unfold, if_pos (by omega)]
  simp

theorem natDigits_three (n : Nat) (h1 : 100 ≤ n) (h2 : n < 1000) :
    natDigits n = [n / 100, n / 10 % 10, n % 10] := by
  unfold natDigits
  rw [natDigitsRev_unfold, if_neg (by omega), natDigitsRev_unfold, if_neg (by omega),
    natDigitsRev_unfold, if_pos (by omega)]
  simp only [List.reverse_cons, List.reverse_nil]
  rw [Nat.div_div_eq_div_mul]
  simp

theorem natDigits_all_lt10 (n : Nat) : ∀ d ∈ natDigits n, d < 10 := by
  intro d hd
  exact natDigitsRev_all_lt10 n d (List.mem_reverse.mp hd)

theorem natDigits_ne_nil (n : Nat) : natDigits n ≠ [] := by
  unfold natDigits
  rw [natDigitsRev_unfold]
  by_cases h10 : n < 10 <;> simp [h10]

/-! ## Zero padding and grouping -/

theorem zeroPad_two (n : Nat) (h : n < 100) :
    zeroPad 2 (natDigits n) = [n / 10, n % 10] := by
  by_cases h10 : n < 10
  · rw [natDigits_lt10 n h10]
    simp [zeroPad, List.replicate]
    omega
  · rw [natDigits_two n (by omega) h]
    simp [zeroPad]

theorem zeroPad_three (n : Nat) (h : n < 1000) :
    zeroPad 3 (natDigits n) = [n / 100, n / 10 % 10, n % 10] := by
  by_cases h10 : n < 10
  · rw [natDigits_lt10 n h10]
    simp [zeroPad, List.replicate]
    omega
  · by_cases h100 : n < 100
    · rw [natDigits_two n (by omega) h100]
      simp [zeroPad, List.replicate]
      omega
    · rw [natDigits_three n (by omega) h]
      simp [zeroPad]

theorem zeroPad_one (n : Nat) : zeroPad 1 (natDigits n) = natDigits n := by
  have h := natDigits_ne_nil n
  unfold zeroPad
  rw [show 1 - (natDigits n).length = 0 by
    cases hl : natDigits n with
    | nil => exact absurd hl h
    | cons a t => simp]
  simp

theorem insertCommasRev_short (l : List Char) (h : l.length ≤ 3) :
    insertCommasRev l = l := by
  rcases l with _ | ⟨a, _ | ⟨b, _ | ⟨c, _ | ⟨d, r⟩⟩⟩⟩
  · rfl
  · rfl
  · rfl
  · rfl
  · simp at h

theorem localeNatChars_two (n : Nat) (h : n < 100) :
    localeNatChars 2 n = [Nat.digitChar (n / 10), Nat.digitChar (n % 10)] := by
  unfold localeNatChars
  rw [zeroPad_two n h]
  rw [insertCommasRev_short _ (by simp)]
  simp

theorem localeNatChars_three (n : Nat) (h : n < 1000) :
    localeNatChars 3 n
      = [Nat.digitChar (n / 100), Nat.digitChar (n / 10 % 10), Nat.digitChar (n % 10)] := by
  unfold localeNatChars
  rw [zeroPad_three n h]
  rw [insertCommasRev_short _ (by simp)]
  simp

theorem natDigits_length_le3 (n : Nat) (h : n < 1000) : (natDigits n).length ≤ 3 := by
  by_cases h10 : n < 10
  · rw [natDigits_lt10 n h10]; simp
  · by_cases h100 : n < 100
    · rw [natDigits_two n (by omega) h100]; simp
    · rw [natDigits_three n (by omega) h]; simp

theorem localeNatChars_one (n : Nat) (h : n < 1000) :
    localeNatChars 1 n = (natDigits n).map Nat.digitChar := by
  unfold localeNatChars
  rw [zeroPad_one n]
  rw [insertCommasRev_short _ (by simpa using natDigits_length_le3 n h)]
  simp

/-! ## Values of digit runs -/

theorem foldl_digitsVal_map (ds : List Nat) (h : ∀ d ∈ ds, d < 10) :
    ∀ acc : Nat, (ds.map Nat.digitChar).foldl (fun a c => a * 10 + digitVal c) acc
      = ds.foldl (fun a d => a * 10 + d) acc := by
  induction ds with
  | nil => intro acc; simp
  | cons d rest ih =>
    intro acc
    simp only [List.map_cons, List.foldl_cons]
    rw [digitVal_digitChar d (h d (by simp))]
    exact ih (fun x hx => h x (by simp [hx])) _

theorem foldr_natOfDigitsRev (l : List Nat) :
    l.foldr (fun d acc => acc * 10 + d) 0 = natOfDigitsRev l := by
  induction l with
  | nil => rfl
  | cons d rest ih => simp [List.foldr_cons, ih, natOfDigitsRev]; omega

theorem digitsVal_natDigits (n : Nat) :
    digitsVal ((natDigits n).map Nat.digitChar) = n := by
  unfold digitsVal
  rw [foldl_digitsVal_map _ (natDigits_all_lt10 n) 0]
  unfold natDigits
  rw [List.foldl_reverse, foldr_natOfDigitsRev, natOfDigitsRev_natDigitsRev]

theorem digitsVal_one (a : Nat) (ha : a < 10) :
    digitsVal [Nat.digitChar a] = a := by
  simp [digitsVal, digitVal_digitChar a ha]

theorem digitsVal_two (a b : Nat) (ha : a < 10) (hb : b < 10) :
    digitsVal [Nat.digitChar a, Nat.digitChar b] = 10 * a + b := by
  simp [digitsVal, digitVal_digitChar a ha, digitVal_digitChar b hb]
  omega

theorem digitsVal_three (a b c : Nat) (ha : a < 10) (hb : b < 10) (hc : c < 10) :
    digitsVal [Nat.digitChar a, Nat.digitChar b, Nat.digitChar c]
      = 100 * a + 10 * b + c := by
  simp [digitsVal, digitVal_digitChar a ha, digitVal_digitChar b hb, digitVal_digitChar c hc]
  omega

/-! ## Rounding -/

theorem roundHE_natCast (k : Nat) : roundHE (k : ℚ) = k := by
  unfold roundHE
  rw [if_neg (not_lt.mpr (by positivity))]
  rw [Int.floor_eq_iff]
  constructor
  · push_cast; linarith
  · push_cast; linarith

theorem roundHE_of_eq_natCast (q : ℚ) (k : Nat) (h : q = (k : ℚ)) :
    roundHE q = k := by rw [h]; exact roundHE_natCast k

/-! ## Trimming and case folding -/

theorem jsTrim_sandwich (a z : Char) (mid : List Char)
    (ha : a.isWhitespace = false) (hz : z.isWhitespace = false) :
    jsTrim (a :: (mid ++ [z])) = a :: (mid ++ [z]) := by
  unfold jsTrim
  rw [List.dropWhile_cons, if_neg (by simp [ha])]
  rw [show (a :: (mid ++ [z])).reverse = z :: (mid.reverse ++ [a]) by simp]
  rw [List.dropWhile_cons, if_neg (by simp [hz])]
  simp

theorem toUpper_degreeSign : '°'.toUpper = '°' := by decide

theorem toUpper_space : ' '.toUpper = ' ' := by decide

theorem toUpper_rq : '’'.toUpper = '’' := by decide

theorem toUpper_dot : '.'.toUpper = '.' := by decide

theorem toUpper_N : 'N'.toUpper = 'N' := by decide

theorem toUpper_S : 'S'.toUpper = 'S' := by decide

theorem toUpper_E : 'E'.toUpper = 'E' := by decide

theorem toUpper_W : 'W'.toUpper = 'W' := by decide

/-! ## Formatter characterizations

For in-range values the `toLocaleString` model reduces to plain zero-padded
digits (no grouping separators) with exact rounding; these lemmas express
each formatter's output as an explicit character string. -/

theorem natAbs_cast_q (n : ℤ) : ((n.natAbs : ℕ) : ℚ) = |(n : ℚ)| := by
  rw [Int.cast_natAbs, Int.cast_abs]

theorem formatIntegerLatitude_eq (n : ℤ) (h : n.natAbs < 100) :
    formatIntegerLatitude (n : ℚ)
      = ⟨[Nat.digitChar (n.natAbs / 10), Nat.digitChar (n.natAbs % 10), '°']
          ++ (if 0 < n then [' ', 'N'] else if n < 0 then [' ', 'S'] else [])⟩ := by
  have hlist : formatDegreesDirectionChars (n : ℚ) 2 'N' 'S'
      = [Nat.digitChar (n.natAbs / 10), Nat.digitChar (n.natAbs % 10), '°']
          ++ (if 0 < n then [' ', 'N'] else if n < 0 then [' ', 'S'] else []) := by
    unfold formatDegreesDirectionChars
    rw [← natAbs_cast_q n, roundHE_natCast, Int.toNat_natCast, localeNatChars_two _ h]
    simp only [Int.cast_pos, Int.cast_lt_zero]
    rcases lt_trichotomy n 0 with hn | rfl | hn
    · rw [if_neg (by omega), if_pos hn]
      simp
    · norm_num
    · rw [if_pos hn]
      simp
  unfold formatIntegerLatitude
  rw [hlist]

theorem formatIntegerLongitude_eq (n : ℤ) (h : n.natAbs < 1000) :
    formatIntegerLongitude (n : ℚ)
      = ⟨[Nat.digitChar (n.natAbs / 100), Nat.digitChar (n.natAbs / 10 % 10),
          Nat.digitChar (n.natAbs % 10), '°']
          ++ (if 0 < n then [' ', 'E'] else if n < 0 then [' ', 'W'] else [])⟩ := by
  have hlist : formatDegreesDirectionChars (n : ℚ) 3 'E' 'W'
      = [Nat.digitChar (n.natAbs / 100), Nat.digitChar (n.natAbs / 10 % 10),
          Nat.digitChar (n.natAbs % 10), '°']
          ++ (if 0 < n then [' ', 'E'] else if n < 0 then [' ', 'W'] else []) := by
    unfold formatDegreesDirectionChars
    rw [← natAbs_cast_q n, roundHE_natCast, Int.toNat_natCast, localeNatChars_three _ h]
    simp only [Int.cast_pos, Int.cast_lt_zero]
    rcases lt_trichotomy n 0 with hn | rfl | hn
    · rw [if_neg (by omega), if_pos hn]
      simp
    · norm_num
    · rw [if_pos hn]
      simp
  unfold formatIntegerLongitude
  rw [hlist]

theorem floor_natCast_add_sixHundredths (d k : Nat) (hk : k < 600) :
    ⌊(d : ℚ) + (k : ℚ) / 600⌋ = d := by
  rw [Int.floor_eq_iff]
  have hk6 : (k : ℚ) < 600 := by exact_mod_cast hk
  have hk0 : (0 : ℚ) ≤ (k : ℚ) / 600 := by positivity
  have hk1 : (k : ℚ) / 600 < 1 := by
    rw [div_lt_one (by norm_num)]
    exact hk6
  constructor
  · push_cast
    linarith
  · push_cast
    linarith

theorem formatDegreesMinutesDirection_eq (z : ℤ) (minDegreeDigits : Nat)
    (pos neg : Char) (hd : z.natAbs / 600 < 1000) :
    formatDegreesMinutesDirectionChars ((z : ℚ) / 600) minDegreeDigits pos neg
      = localeNatChars minDegreeDigits (z.natAbs / 600) ++ ['°', ' ']
        ++ [Nat.digitChar (z.natAbs % 600 / 10 / 10),
            Nat.digitChar (z.natAbs % 600 / 10 % 10), '.',
            Nat.digitChar (z.natAbs % 600 % 10)] ++ ['’']
        ++ (if 0 < z then [' ', pos] else if z < 0 then [' ', neg] else []) := by
  have habs : |(z : ℚ) / 600| = ((z.natAbs : ℕ) : ℚ) / 600 := by
    rw [abs_div, ← natAbs_cast_q z]
    norm_num
  set A := z.natAbs with hA
  have hsplit : ((A : ℕ) : ℚ) = 600 * ((A / 600 : ℕ) : ℚ) + ((A % 600 : ℕ) : ℚ) := by
    exact_mod_cast (Nat.div_add_mod A 600).symm
  have hlt : A % 600 < 600 := Nat.mod_lt _ (by norm_num)
  have hval : ((A : ℕ) : ℚ) / 600 = ((A / 600 : ℕ) : ℚ) + ((A % 600 : ℕ) : ℚ) / 600 := by
    rw [hsplit]
    ring
  have hfloor : ⌊|(z : ℚ) / 600|⌋ = (A / 600 : ℕ) := by
    rw [habs, hval]
    exact floor_natCast_add_sixHundredths _ _ hlt
  have hmin : (|(z : ℚ) / 600| - ((A / 600 : ℕ) : ℚ)) * 60 = ((A % 600 : ℕ) : ℚ) / 10 := by
    rw [habs, hval]
    ring
  have hround : (roundHE (((A % 600 : ℕ) : ℚ) / 10 * 10)).toNat = A % 600 := by
    rw [roundHE_of_eq_natCast _ (A % 600) (by field_simp), Int.toNat_natCast]
  have hsign1 : (0 < (z : ℚ) / 600) ↔ 0 < z := by
    rw [lt_div_iff₀ (show (0 : ℚ) < 600 by norm_num)]
    simp [Int.cast_pos]
  have hsign2 : ((z : ℚ) / 600 < 0) ↔ z < 0 := by
    rw [div_lt_iff₀ (show (0 : ℚ) < 600 by norm_num)]
    simp [Int.cast_lt_zero]
  simp only [formatDegreesMinutesDirectionChars, localeTenthsChars]
  rw [hfloor, Int.toNat_natCast, hmin, hround, localeNatChars_two _ (by omega)]
  simp only [hsign1, hsign2]
  rcases lt_trichotomy z 0 with hz | rfl | hz
  · rw [if_neg (by omega), if_pos hz]
    simp
  · norm_num
  · rw [if_pos hz]
    simp

theorem formatZn_eq (d : Nat) (h : d < 1000) :
    formatZn d = ⟨[Nat.digitChar (d / 100), Nat.digitChar (d / 10 % 10),
      Nat.digitChar (d % 10), '°']⟩ := by
  have hlist : localeNatChars 3 d ++ ['°']
      = [Nat.digitChar (d / 100), Nat.digitChar (d / 10 % 10),
          Nat.digitChar (d % 10), '°'] := by
    rw [localeNatChars_three _ h]
    simp
  unfold formatZn
  rw [hlist]

theorem formatA_eq (q : ℚ) (hr : (roundHE (q * 10)).toNat < 10000) :
    formatA q = ⟨((natDigits ((roundHE (q * 10)).toNat / 10)).map Nat.digitChar)
      ++ ['.', Nat.digitChar ((roundHE (q * 10)).toNat % 10), '’']⟩ := by
  have hlist : localeTenthsChars 1 q ++ ['’']
      = ((natDigits ((roundHE (q * 10)).toNat / 10)).map Nat.digitChar)
        ++ ['.', Nat.digitChar ((roundHE (q * 10)).toNat % 10), '’'] := by
    simp only [localeTenthsChars]
    rw [localeNatChars_one _ (by omega)]
    simp
  unfold formatA
  rw [hlist]

/-! ## Parser evaluation on canonical shapes

These lemmas run the embedded regexes over the strings the formatters
produce (digit characters are symbolic, the punctuation is literal). -/

theorem range_one : List.range 1 = [0] := rfl

theorem range_two : List.range 2 = [0, 1] := rfl

theorem range_three : List.range 3 = [0, 1, 2] := rfl

theorem min_three_one : min 3 1 = 1 := rfl

theorem min_three_two : min 3 2 = 2 := rfl

theorem min_two_one : min 2 1 = 1 := rfl

theorem ddnBranch_intLat (a b : Nat) (ha : a < 10) (hb : b < 10) (dir : Char)
    (hdir : dir = 'N' ∨ dir = 'S') :
    ddnBranch 2 'N' 'S' false [Nat.digitChar a, Nat.digitChar b, '°', ' ', dir]
      = some (((10 * a + b : ℕ) : ℚ) + 0 / 60, decide (dir = 'N')) := by
  rcases hdir with rfl | rfl <;>
    simp [ddnBranch, digitPrefixes, minuteCandidates, consumeOptChar, skipSpaces,
      firstSome, List.takeWhile_cons, digitChar_isDigit a ha, digitChar_isDigit b hb,
      isDegreeMark, range_two, digitsVal_two a b ha hb]

theorem ddnBranch_intLon (a b c : Nat) (ha : a < 10) (hb : b < 10) (hc : c < 10)
    (dir : Char) (hdir : dir = 'E' ∨ dir = 'W') :
    ddnBranch 3 'E' 'W' false
        [Nat.digitChar a, Nat.digitChar b, Nat.digitChar c, '°', ' ', dir]
      = some (((100 * a + 10 * b + c : ℕ) : ℚ) + 0 / 60, decide (dir = 'E')) := by
  rcases hdir with rfl | rfl <;>
    simp [ddnBranch, digitPrefixes, minuteCandidates, consumeOptChar, skipSpaces,
      firstSome, List.takeWhile_cons, digitChar_isDigit a ha, digitChar_isDigit b hb,
      digitChar_isDigit c hc, isDegreeMark, range_three, digitsVal_three a b c ha hb hc]

theorem ddnBranch_minLon (a b c m1 m2 t : Nat) (ha : a < 10) (hb : b < 10)
    (hc : c < 10) (hm1 : m1 < 10) (hm2 : m2 < 10) (ht : t < 10)
    (dir : Char) (hdir : dir = 'E' ∨ dir = 'W') :
    ddnBranch 3 'E' 'W' true
        [Nat.digitChar a, Nat.digitChar b, Nat.digitChar c, '°', ' ',
         Nat.digitChar m1, Nat.digitChar m2, '.', Nat.digitChar t, '’', ' ', dir]
      = some (((100 * a + 10 * b + c : ℕ) : ℚ)
          + (((10 * m1 + m2 : ℕ) : ℚ) + (t : ℚ) / 10) / 60, decide (dir = 'E')) := by
  rcases hdir with rfl | rfl <;>
    simp [ddnBranch, digitPrefixes, minuteCandidates, fracCandidate, consumeOptChar,
      skipSpaces, firstSome, List.takeWhile_cons, digitChar_isDigit a ha,
      digitChar_isDigit b hb, digitChar_isDigit c hc, digitChar_isDigit m1 hm1,
      digitChar_isDigit m2 hm2, digitChar_isDigit t ht, digitVal_digitChar t ht,
      digitChar_ne_space m1 hm1, digitChar_ne_space m2 hm2, digitChar_ne_space t ht,
      digitChar_ne_dot m1 hm1, digitChar_ne_dot m2 hm2, digitChar_ne_dot t ht,
      digitChar_ne_degreeSign m1 hm1, digitChar_ne_star m1 hm1,
      digitChar_ne_apos t ht, digitChar_ne_lq t ht, digitChar_ne_rq t ht,
      isDegreeMark, isMinuteMark, range_three, range_two,
      digitsVal_three a b c ha hb hc, digitsVal_two m1 m2 hm1 hm2]

theorem ddnBranch_minWhole (d m1 m2 : Nat) (hd : d < 10) (hm1 : m1 < 10)
    (hm2 : m2 < 10) (dir : Char) (hdir : dir = 'E' ∨ dir = 'W') :
    ddnBranch 3 'E' 'W' true
        [Nat.digitChar d, ' ', Nat.digitChar m1, Nat.digitChar m2, ' ', dir]
      = some (((d : ℕ) : ℚ) + (((10 * m1 + m2 : ℕ) : ℚ) + 0) / 60, decide (dir = 'E')) := by
  rcases hdir with rfl | rfl <;>
    simp [ddnBranch, digitPrefixes, minuteCandidates, fracCandidate, consumeOptChar,
      skipSpaces, firstSome, List.takeWhile_cons, digitChar_isDigit d hd,
      digitChar_isDigit m1 hm1, digitChar_isDigit m2 hm2,
      digitChar_ne_space m1 hm1, digitChar_ne_space m2 hm2,
      digitChar_ne_degreeSign m1 hm1, digitChar_ne_star m1 hm1,
      digitChar_ne_dot m2 hm2,
      isDegreeMark, isMinuteMark, range_three, range_two, range_one,
      min_three_one, min_three_two, min_two_one,
      digitsVal_one d hd, digitsVal_two m1 m2 hm1 hm2]

theorem ddnBranch_minFrac (d m1 m2 t : Nat) (hd : d < 10) (hm1 : m1 < 10)
    (hm2 : m2 < 10) (ht : t < 10) (dir : Char) (hdir : dir = 'E' ∨ dir = 'W') :
    ddnBranch 3 'E' 'W' true
        [Nat.digitChar d, ' ', Nat.digitChar m1, Nat.digitChar m2, '.',
         Nat.digitChar t, ' ', dir]
      = some (((d : ℕ) : ℚ) + (((10 * m1 + m2 : ℕ) : ℚ) + (t : ℚ) / 10) / 60,
          decide (dir = 'E')) := by
  rcases hdir with rfl | rfl <;>
    simp [ddnBranch, digitPrefixes, minuteCandidates, fracCandidate, consumeOptChar,
      skipSpaces, firstSome, List.takeWhile_cons, digitChar_isDigit d hd,
      digitChar_isDigit m1 hm1, digitChar_isDigit m2 hm2, digitChar_isDigit t ht,
      digitVal_digitChar t ht, digitChar_ne_space m1 hm1, digitChar_ne_space m2 hm2,
      digitChar_ne_space t ht, digitChar_ne_degreeSign m1 hm1, digitChar_ne_star m1 hm1,
      digitChar_ne_dot m2 hm2, digitChar_ne_dot t ht,
      digitChar_ne_apos t ht, digitChar_ne_lq t ht, digitChar_ne_rq t ht,
      isDegreeMark, isMinuteMark, range_three, range_two, range_one,
      min_three_one, min_three_two, min_two_one,
      digitsVal_one d hd, digitsVal_two m1 m2 hm1 hm2]

theorem znMatch_three (a b c : Nat) (ha : a < 10) (hb : b < 10) (hc : c < 10) :
    znMatch [Nat.digitChar a, Nat.digitChar b, Nat.digitChar c, '°']
      = some (100 * a + 10 * b + c) := by
  simp [znMatch, consumeOptChar, skipSpaces, List.takeWhile_cons, List.dropWhile_cons,
    digitChar_isDigit a ha, digitChar_isDigit b hb, digitChar_isDigit c hc,
    isDegreeMark, digitsVal_three a b c ha hb hc]

theorem takeWhile_digit_append (ds rest : List Char)
    (h : ∀ c ∈ ds, c.isDigit = true) :
    (ds ++ rest).takeWhile Char.isDigit = ds ++ rest.takeWhile Char.isDigit := by
  induction ds with
  | nil => simp
  | cons c t ih =>
    simp only [List.cons_append, List.takeWhile_cons, h c (by simp), if_true]
    rw [ih (fun x hx => h x (by simp [hx]))]

theorem dropWhile_digit_append (ds rest : List Char)
    (h : ∀ c ∈ ds, c.isDigit = true) :
    (ds ++ rest).dropWhile Char.isDigit = rest.dropWhile Char.isDigit := by
  induction ds with
  | nil => simp
  | cons c t ih =>
    simp only [List.cons_append, List.dropWhile_cons, h c (by simp), if_true]
    exact ih (fun x hx => h x (by simp [hx]))

theorem parseANum_shape (i t : Nat) (ht : t < 10) :
    parseANum ⟨((natDigits i).map Nat.digitChar) ++ ['.', Nat.digitChar t, '’']⟩
      = some ((i : ℚ) + (t : ℚ) / 10) := by
  obtain ⟨d0, ds, hds⟩ : ∃ d0 ds, natDigits i = d0 :: ds := by
    cases h : natDigits i with
    | nil => exact absurd h (natDigits_ne_nil i)
    | cons a b => exact ⟨a, b, rfl⟩
  have hd0 : d0 < 10 := natDigits_all_lt10 i d0 (by rw [hds]; simp)
  have hall : ∀ c ∈ (natDigits i).map Nat.digitChar, c.isDigit = true := by
    intro c hc
    obtain ⟨d, hd, rfl⟩ := List.mem_map.mp hc
    exact digitChar_isDigit d (natDigits_all_lt10 i d hd)
  have htrim : jsTrim (((natDigits i).map Nat.digitChar) ++ ['.', Nat.digitChar t, '’'])
      = ((natDigits i).map Nat.digitChar) ++ ['.', Nat.digitChar t, '’'] := by
    rw [hds]
    simp only [List.map_cons]
    have h2 := jsTrim_sandwich (Nat.digitChar d0) '’'
      (ds.map Nat.digitChar ++ ['.', Nat.digitChar t]) (digitChar_not_ws d0 hd0) (by decide)
    simpa using h2
  simp only [parseANum, String.toList]
  rw [htrim, takeWhile_digit_append _ _ hall, dropWhile_digit_append _ _ hall]
  rw [show (['.', Nat.digitChar t, '’'] : List Char).takeWhile Char.isDigit = [] by simp]
  rw [show (['.', Nat.digitChar t, '’'] : List Char).dropWhile Char.isDigit
      = ['.', Nat.digitChar t, '’'] by simp]
  rw [if_neg (by rw [hds]; simp)]
  simp only [List.append_nil]
  simp [digitChar_isDigit t ht, List.takeWhile_cons, skipSpaces, consumeOptChar,
    isMinuteMark, digitsVal_natDigits, digitsVal_one t ht]

/-! ## Assembling `parseDegreesDirection` runs -/

theorem parseDD_of_ddnBranch (L : List Char) (maxD : Nat) (maxM : ℚ)
    (pos neg : Char) (wm : Bool) (v : ℚ) (ispos : Bool)
    (htrim : jsTrim L = L) (hupper : L.map Char.toUpper = L) (hne : L ≠ [])
    (hb : ddnBranch maxD pos neg wm L = some (v, ispos)) (hv : ¬(maxM < v)) :
    parseDegreesDirection ⟨L⟩ maxD maxM pos neg wm
      = some (if ispos then v else -v) := by
  simp only [parseDegreesDirection, String.toList]
  rw [htrim, hupper, if_neg hne, hb]
  simp only [Option.orElse]
  rw [if_neg hv]

theorem parseDD_of_signBranch (L : List Char) (maxD : Nat) (maxM : ℚ)
    (pos neg : Char) (wm : Bool) (v : ℚ) (ispos : Bool)
    (htrim : jsTrim L = L) (hupper : L.map Char.toUpper = L) (hne : L ≠ [])
    (hb1 : ddnBranch maxD pos neg wm L = none)
    (hb2 : signBranch maxD wm L = some (v, ispos)) (hv : ¬(maxM < v)) :
    parseDegreesDirection ⟨L⟩ maxD maxM pos neg wm
      = some (if ispos then v else -v) := by
  simp only [parseDegreesDirection, String.toList]
  rw [htrim, hupper, if_neg hne, hb1]
  simp only [Option.orElse]
  rw [hb2]
  simp [hv]

theorem parseDD_reject (L : List Char) (maxD : Nat) (maxM : ℚ)
    (pos neg : Char) (wm : Bool) (v : ℚ) (ispos : Bool)
    (htrim : jsTrim L = L) (hupper : L.map Char.toUpper = L) (hne : L ≠ [])
    (hb : ddnBranch maxD pos neg wm L = some (v, ispos)) (hv : maxM < v) :
    parseDegreesDirection ⟨L⟩ maxD maxM pos neg wm = none := by
  simp only [parseDegreesDirection, String.toList]
  rw [htrim, hupper, if_neg hne, hb]
  simp only [Option.orElse]
  rw [if_pos hv]

/-! ## Parsing the canonical (formatted) texts back -/

theorem parseIntegerLatitude_shape (A : Nat) (h : A ≤ 89) (dir : Char)
    (hdir : dir = 'N' ∨ dir = 'S') :
    parseIntegerLatitude ⟨[Nat.digitChar (A / 10), Nat.digitChar (A % 10), '°', ' ', dir]⟩
      = some (if dir = 'N' then (A : ℚ) else -(A : ℚ)) := by
  have ha : A / 10 < 10 := by omega
  have hb : A % 10 < 10 := by omega
  have hA : ((10 * (A / 10) + A % 10 : ℕ) : ℚ) + 0 / 60 = (A : ℚ) := by
    rw [show 10 * (A / 10) + A % 10 = A from by omega]
    norm_num
  have hv : ¬((89 : ℚ) < ((10 * (A / 10) + A % 10 : ℕ) : ℚ) + 0 / 60) := by
    rw [hA]
    have : (A : ℚ) ≤ 89 := by exact_mod_cast h
    linarith
  have hw : dir.isWhitespace = false := by rcases hdir with rfl | rfl <;> decide
  have hu : dir.toUpper = dir := by rcases hdir with rfl | rfl <;> decide
  unfold parseIntegerLatitude
  rw [parseDD_of_ddnBranch _ 2 89 'N' 'S' false _ (decide (dir = 'N'))
    (by simpa using jsTrim_sandwich (Nat.digitChar (A / 10)) dir
          [Nat.digitChar (A % 10), '°', ' '] (digitChar_not_ws _ ha) hw)
    (by simp [digitChar_toUpper _ ha, digitChar_toUpper _ hb, toUpper_degreeSign,
          toUpper_space, hu])
    (by simp)
    (ddnBranch_intLat (A / 10) (A % 10) ha hb dir hdir) hv]
  have hs1 : (10 : ℚ) * ((A / 10 : ℕ) : ℚ) + ((A % 10 : ℕ) : ℚ) = ((A : ℕ) : ℚ) := by
    exact_mod_cast (show 10 * (A / 10) + A % 10 = A from by omega)
  rcases hdir with rfl | rfl <;> simp [hA] <;> linarith [hs1]

theorem parseIntegerLatitude_zero :
    parseIntegerLatitude ⟨['0', '0', '°']⟩ = some 0 := by
  unfold parseIntegerLatitude
  rw [parseDD_of_signBranch _ 2 89 'N' 'S' false 0 true
    (by decide) (by decide) (by decide)
    (by decide)
    (by simp [signBranch, digitPrefixes, skipSpaces, consumeOptChar,
          minuteCandidates, firstSome, isDegreeMark, range_two, digitsVal, digitVal])
    (by norm_num)]
  norm_num

theorem parseIntegerLongitude_shape (A : Nat) (h : A ≤ 180) (dir : Char)
    (hdir : dir = 'E' ∨ dir = 'W') :
    parseIntegerLongitude
        ⟨[Nat.digitChar (A / 100), Nat.digitChar (A / 10 % 10),
          Nat.digitChar (A % 10), '°', ' ', dir]⟩
      = some (if dir = 'E' then (A : ℚ) else -(A : ℚ)) := by
  have ha : A / 100 < 10 := by omega
  have hb : A / 10 % 10 < 10 := by omega
  have hc : A % 10 < 10 := by omega
  have hA : ((100 * (A / 100) + 10 * (A / 10 % 10) + A % 10 : ℕ) : ℚ) + 0 / 60 = (A : ℚ) := by
    rw [show 100 * (A / 100) + 10 * (A / 10 % 10) + A % 10 = A from by omega]
    norm_num
  have hv : ¬((180 : ℚ) < ((100 * (A / 100) + 10 * (A / 10 % 10) + A % 10 : ℕ) : ℚ) + 0 / 60) := by
    rw [hA]
    have : (A : ℚ) ≤ 180 := by exact_mod_cast h
    linarith
  have hw : dir.isWhitespace = false := by rcases hdir with rfl | rfl <;> decide
  have hu : dir.toUpper = dir := by rcases hdir with rfl | rfl <;> decide
  unfold parseIntegerLongitude
  rw [parseDD_of_ddnBranch _ 3 180 'E' 'W' false _ (decide (dir = 'E'))
    (by simpa using jsTrim_sandwich (Nat.digitChar (A / 100)) dir
          [Nat.digitChar (A / 10 % 10), Nat.digitChar (A % 10), '°', ' ']
          (digitChar_not_ws _ ha) hw)
    (by simp [digitChar_toUpper _ ha, digitChar_toUpper _ hb, digitChar_toUpper _ hc,
          toUpper_degreeSign, toUpper_space, hu])
    (by simp)
    (ddnBranch_intLon (A / 100) (A / 10 % 10) (A % 10) ha hb hc dir hdir) hv]
  have hs1 : (100 : ℚ) * ((A / 100 : ℕ) : ℚ) + 10 * ((A / 10 % 10 : ℕ) : ℚ)
      + ((A % 10 : ℕ) : ℚ) = ((A : ℕ) : ℚ) := by
    exact_mod_cast (show 100 * (A / 100) + 10 * (A / 10 % 10) + A % 10 = A from by omega)
  rcases hdir with rfl | rfl <;> simp [hA] <;> linarith [hs1]

theorem parseIntegerLongitude_zero :
    parseIntegerLongitude ⟨['0', '0', '0', '°']⟩ = some 0 := by
  unfold parseIntegerLongitude
  rw [parseDD_of_signBranch _ 3 180 'E' 'W' false 0 true
    (by decide) (by decide) (by decide)
    (by decide)
    (by simp [signBranch, digitPrefixes, skipSpaces, consumeOptChar,
          minuteCandidates, firstSome, isDegreeMark, range_three, digitsVal, digitVal])
    (by norm_num)]
  norm_num

theorem parseLongitude_shape (D K : Nat) (hD : D ≤ 180) (hK : K < 600)
    (hDK : (D : ℚ) + (K : ℚ) / 600 ≤ 180) (dir : Char)
    (hdir : dir = 'E' ∨ dir = 'W') :
    parseLongitude
        ⟨[Nat.digitChar (D / 100), Nat.digitChar (D / 10 % 10), Nat.digitChar (D % 10),
          '°', ' ', Nat.digitChar (K / 10 / 10), Nat.digitChar (K / 10 % 10), '.',
          Nat.digitChar (K % 10), '’', ' ', dir]⟩
      = some (if dir = 'E' then (D : ℚ) + (K : ℚ) / 600 else -((D : ℚ) + (K : ℚ) / 600)) := by
  have ha : D / 100 < 10 := by omega
  have hb : D / 10 % 10 < 10 := by omega
  have hc : D % 10 < 10 := by omega
  have hm1 : K / 10 / 10 < 10 := by omega
  have hm2 : K / 10 % 10 < 10 := by omega
  have ht : K % 10 < 10 := by omega
  have hA : ((100 * (D / 100) + 10 * (D / 10 % 10) + D % 10 : ℕ) : ℚ)
      + (((10 * (K / 10 / 10) + K / 10 % 10 : ℕ) : ℚ) + ((K % 10 : ℕ) : ℚ) / 10) / 60
      = (D : ℚ) + (K : ℚ) / 600 := by
    rw [show 100 * (D / 100) + 10 * (D / 10 % 10) + D % 10 = D from by omega]
    rw [show 10 * (K / 10 / 10) + K / 10 % 10 = K / 10 from by omega]
    rw [show ((K : ℕ) : ℚ) = 10 * ((K / 10 : ℕ) : ℚ) + ((K % 10 : ℕ) : ℚ) from by
      exact_mod_cast (Nat.div_add_mod K 10).symm.trans (by ring_nf)]
    ring
  have hv : ¬((180 : ℚ) < ((100 * (D / 100) + 10 * (D / 10 % 10) + D % 10 : ℕ) : ℚ)
      + (((10 * (K / 10 / 10) + K / 10 % 10 : ℕ) : ℚ) + ((K % 10 : ℕ) : ℚ) / 10) / 60) := by
    rw [hA]
    linarith
  have hw : dir.isWhitespace = false := by rcases hdir with rfl | rfl <;> decide
  have hu : dir.toUpper = dir := by rcases hdir with rfl | rfl <;> decide
  unfold parseLongitude
  rw [parseDD_of_ddnBranch _ 3 180 'E' 'W' true _ (decide (dir = 'E'))
    (by simpa using jsTrim_sandwich (Nat.digitChar (D / 100)) dir
          [Nat.digitChar (D / 10 % 10), Nat.digitChar (D % 10), '°', ' ',
           Nat.digitChar (K / 10 / 10), Nat.digitChar (K / 10 % 10), '.',
           Nat.digitChar (K % 10), '’', ' ']
          (digitChar_not_ws _ ha) hw)
    (by simp [digitChar_toUpper _ ha, digitChar_toUpper _ hb, digitChar_toUpper _ hc,
          digitChar_toUpper _ hm1, digitChar_toUpper _ hm2, digitChar_toUpper _ ht,
          toUpper_degreeSign, toUpper_space, toUpper_rq, toUpper_dot, hu])
    (by simp)
    (ddnBranch_minLon (D / 100) (D / 10 % 10) (D % 10) (K / 10 / 10) (K / 10 % 10)
      (K % 10) ha hb hc hm1 hm2 ht dir hdir) hv]
  have hs1 : (100 : ℚ) * ((D / 100 : ℕ) : ℚ) + 10 * ((D / 10 % 10 : ℕ) : ℚ)
      + ((D % 10 : ℕ) : ℚ) = ((D : ℕ) : ℚ) := by
    exact_mod_cast (show 100 * (D / 100) + 10 * (D / 10 % 10) + D % 10 = D from by omega)
  have hs2 : (10 : ℚ) * ((K / 10 / 10 : ℕ) : ℚ) + ((K / 10 % 10 : ℕ) : ℚ)
      = ((K / 10 : ℕ) : ℚ) := by
    exact_mod_cast (show 10 * (K / 10 / 10) + K / 10 % 10 = K / 10 from by omega)
  have hs3 : (10 : ℚ) * ((K / 10 : ℕ) : ℚ) + ((K % 10 : ℕ) : ℚ) = ((K : ℕ) : ℚ) := by
    exact_mod_cast (show 10 * (K / 10) + K % 10 = K from by omega)
  rcases hdir with rfl | rfl <;> simp [hA] <;> linarith [hs1, hs2, hs3]

theorem parseLongitude_zero :
    parseLongitude ⟨['0', '0', '0', '°', ' ', '0', '0', '.', '0', '’']⟩ = some 0 := by
  unfold parseLongitude
  rw [parseDD_of_signBranch _ 3 180 'E' 'W' true 0 true
    (by decide) (by decide) (by decide)
    (by decide)
    (by simp [signBranch, digitPrefixes, skipSpaces, consumeOptChar, fracCandidate,
          minuteCandidates, firstSome, isDegreeMark, isMinuteMark, range_three, range_two,
          digitsVal, digitVal])
    (by norm_num)]
  norm_num

theorem parseZnDeg_format (d : Nat) (hd : d ≤ 360) :
    parseZnDeg (formatZn d) = some d := by
  rw [formatZn_eq d (by omega)]
  have h1 : d / 100 < 10 := by omega
  have h2 : d / 10 % 10 < 10 := by omega
  have h3 : d % 10 < 10 := by omega
  have htrim : jsTrim [Nat.digitChar (d / 100), Nat.digitChar (d / 10 % 10),
      Nat.digitChar (d % 10), '°'] = [Nat.digitChar (d / 100), Nat.digitChar (d / 10 % 10),
      Nat.digitChar (d % 10), '°'] := by
    have h5 := jsTrim_sandwich (Nat.digitChar (d / 100)) '°'
      [Nat.digitChar (d / 10 % 10), Nat.digitChar (d % 10)]
      (digitChar_not_ws _ h1) (by decide)
    simpa using h5
  simp only [parseZnDeg, String.toList]
  rw [htrim, if_neg (by simp), znMatch_three _ _ _ h1 h2 h3]
  rw [show 100 * (d / 100) + 10 * (d / 10 % 10) + d % 10 = d from by omega]
  simp [show ¬(360 < d) from by omega]

theorem parseANum_format (q : ℚ)
    (hr : (roundHE (q * 10)).toNat < 10000) :
    parseANum (formatA q)
      = some ((((roundHE (q * 10)).toNat / 10 : ℕ) : ℚ)
          + (((roundHE (q * 10)).toNat % 10 : ℕ) : ℚ) / 10) := by
  rw [formatA_eq q hr]
  have := parseANum_shape ((roundHE (q * 10)).toNat / 10) ((roundHE (q * 10)).toNat % 10)
    (by omega)
  simpa using this

theorem parseDD_none (L : List Char) (maxD : Nat) (maxM : ℚ)
    (pos neg : Char) (wm : Bool)
    (htrim : jsTrim L = L) (hupper : L.map Char.toUpper = L) (hne : L ≠ [])
    (hb1 : ddnBranch maxD pos neg wm L = none)
    (hb2 : signBranch maxD wm L = none) :
    parseDegreesDirection ⟨L⟩ maxD maxM pos neg wm = none := by
  simp only [parseDegreesDirection, String.toList]
  rw [htrim, hupper, if_neg hne, hb1]
  simp only [Option.orElse]
  rw [hb2]

theorem parseZnDeg_le (s : String) (d : Nat) (h : parseZnDeg s = some d) :
    d ≤ 360 := by
  by_cases h1 : jsTrim s.data = []
  · simp [parseZnDeg, String.toList, h1] at h
    omega
  · rcases hz : znMatch (jsTrim s.data) with _ | d2
    · simp [parseZnDeg, String.toList, h1, hz] at h
    · by_cases h2 : 360 < d2
      · exfalso
        simp [parseZnDeg, String.toList, h1, hz, h2] at h
      · simp [parseZnDeg, String.toList, h1, hz, h2] at h
        omega

theorem parseIntegerLatitude_format (n : ℤ) (h : |n| ≤ 89) :
    parseIntegerLatitude (formatIntegerLatitude (n : ℚ)) = some ((n : ℚ)) := by
  have hA89 : n.natAbs ≤ 89 := by
    rw [Int.abs_eq_natAbs] at h
    exact_mod_cast h
  rw [formatIntegerLatitude_eq n (by omega)]
  rcases lt_trichotomy n 0 with hn | rfl | hn
  · rw [if_neg (by omega), if_pos hn]
    rw [show ([Nat.digitChar (n.natAbs / 10), Nat.digitChar (n.natAbs % 10), '°']
          ++ [' ', 'S'] : List Char)
        = [Nat.digitChar (n.natAbs / 10), Nat.digitChar (n.natAbs % 10), '°', ' ', 'S']
      from by simp]
    rw [parseIntegerLatitude_shape n.natAbs hA89 'S' (Or.inr rfl), if_neg (by decide)]
    simp only [Option.some.injEq]
    rw [natAbs_cast_q, abs_of_neg (show (n : ℚ) < 0 from by exact_mod_cast hn)]
    ring
  · simp [show Nat.digitChar 0 = '0' from by decide]
    exact parseIntegerLatitude_zero
  · rw [if_pos hn]
    rw [show ([Nat.digitChar (n.natAbs / 10), Nat.digitChar (n.natAbs % 10), '°']
          ++ [' ', 'N'] : List Char)
        = [Nat.digitChar (n.natAbs / 10), Nat.digitChar (n.natAbs % 10), '°', ' ', 'N']
      from by simp]
    rw [parseIntegerLatitude_shape n.natAbs hA89 'N' (Or.inl rfl), if_pos (by decide)]
    simp only [Option.some.injEq]
    rw [natAbs_cast_q, abs_of_pos (show (0 : ℚ) < (n : ℚ) from by exact_mod_cast hn)]

theorem parseIntegerLongitude_format (n : ℤ) (h : |n| ≤ 180) :
    parseIntegerLongitude (formatIntegerLongitude (n : ℚ)) = some ((n : ℚ)) := by
  have hA : n.natAbs ≤ 180 := by
    rw [Int.abs_eq_natAbs] at h
    exact_mod_cast h
  rw [formatIntegerLongitude_eq n (by omega)]
  rcases lt_trichotomy n 0 with hn | rfl | hn
  · rw [if_neg (by omega), if_pos hn]
    rw [show ([Nat.digitChar (n.natAbs / 100), Nat.digitChar (n.natAbs / 10 % 10),
            Nat.digitChar (n.natAbs % 10), '°'] ++ [' ', 'W'] : List Char)
        = [Nat.digitChar (n.natAbs / 100), Nat.digitChar (n.natAbs / 10 % 10),
            Nat.digitChar (n.natAbs % 10), '°', ' ', 'W']
      from by simp]
    rw [parseIntegerLongitude_shape n.natAbs hA 'W' (Or.inr rfl), if_neg (by decide)]
    simp only [Option.some.injEq]
    rw [natAbs_cast_q, abs_of_neg (show (n : ℚ) < 0 from by exact_mod_cast hn)]
    ring
  · simp [show Nat.digitChar 0 = '0' from by decide]
    exact parseIntegerLongitude_zero
  · rw [if_pos hn]
    rw [show ([Nat.digitChar (n.natAbs / 100), Nat.digitChar (n.natAbs / 10 % 10),
            Nat.digitChar (n.natAbs % 10), '°'] ++ [' ', 'E'] : List Char)
        = [Nat.digitChar (n.natAbs / 100), Nat.digitChar (n.natAbs / 10 % 10),
            Nat.digitChar (n.natAbs % 10), '°', ' ', 'E']
      from by simp]
    rw [parseIntegerLongitude_shape n.natAbs hA 'E' (Or.inl rfl), if_pos (by decide)]
    simp only [Option.some.injEq]
    rw [natAbs_cast_q, abs_of_pos (show (0 : ℚ) < (n : ℚ) from by exact_mod_cast hn)]

theorem parseLongitude_format (z : ℤ) (h : |z| ≤ 108000) :
    parseLongitude (formatLongitude ((z : ℚ) / 600)) = some ((z : ℚ) / 600) := by
  have hzn : z.natAbs ≤ 108000 := by
    rw [Int.abs_eq_natAbs] at h
    exact_mod_cast h
  have hd : z.natAbs / 600 < 1000 := by omega
  have hD : z.natAbs / 600 ≤ 180 := by omega
  have hK : z.natAbs % 600 < 600 := by omega
  have hsplit : ((z.natAbs : ℕ) : ℚ)
      = 600 * ((z.natAbs / 600 : ℕ) : ℚ) + ((z.natAbs % 600 : ℕ) : ℚ) := by
    exact_mod_cast (Nat.div_add_mod z.natAbs 600).symm
  have hDK : ((z.natAbs / 600 : ℕ) : ℚ) + ((z.natAbs % 600 : ℕ) : ℚ) / 600 ≤ 180 := by
    have h2 : 600 * (z.natAbs / 600) + z.natAbs % 600 ≤ 108000 := by omega
    have h3 : 600 * ((z.natAbs / 600 : ℕ) : ℚ) + ((z.natAbs % 600 : ℕ) : ℚ) ≤ 108000 := by
      exact_mod_cast h2
    linarith
  unfold formatLongitude
  rw [formatDegreesMinutesDirection_eq z 3 'E' 'W' hd, localeNatChars_three _ hd]
  rcases lt_trichotomy z 0 with hn | rfl | hn
  · rw [if_neg (by omega), if_pos hn]
    rw [show ([Nat.digitChar (z.natAbs / 600 / 100), Nat.digitChar (z.natAbs / 600 / 10 % 10),
            Nat.digitChar (z.natAbs / 600 % 10)] ++ ['°', ' ']
          ++ [Nat.digitChar (z.natAbs % 600 / 10 / 10), Nat.digitChar (z.natAbs % 600 / 10 % 10),
              '.', Nat.digitChar (z.natAbs % 600 % 10)] ++ ['’'] ++ [' ', 'W'] : List Char)
        = [Nat.digitChar (z.natAbs / 600 / 100), Nat.digitChar (z.natAbs / 600 / 10 % 10),
           Nat.digitChar (z.natAbs / 600 % 10), '°', ' ',
           Nat.digitChar (z.natAbs % 600 / 10 / 10), Nat.digitChar (z.natAbs % 600 / 10 % 10),
           '.', Nat.digitChar (z.natAbs % 600 % 10), '’', ' ', 'W']
      from by simp]
    rw [parseLongitude_shape (z.natAbs / 600) (z.natAbs % 600) hD hK hDK 'W' (Or.inr rfl),
      if_neg (by decide)]
    simp only [Option.some.injEq]
    have hA : ((z.natAbs : ℕ) : ℚ) = -(z : ℚ) := by
      rw [natAbs_cast_q, abs_of_neg (show (z : ℚ) < 0 from by exact_mod_cast hn)]
    linarith [hA, hsplit]
  · simp [show Nat.digitChar 0 = '0' from by decide]
    exact parseLongitude_zero
  · rw [if_pos hn]
    rw [show ([Nat.digitChar (z.natAbs / 600 / 100), Nat.digitChar (z.natAbs / 600 / 10 % 10),
            Nat.digitChar (z.natAbs / 600 % 10)] ++ ['°', ' ']
          ++ [Nat.digitChar (z.natAbs % 600 / 10 / 10), Nat.digitChar (z.natAbs % 600 / 10 % 10),
              '.', Nat.digitChar (z.natAbs % 600 % 10)] ++ ['’'] ++ [' ', 'E'] : List Char)
        = [Nat.digitChar (z.natAbs / 600 / 100), Nat.digitChar (z.natAbs / 600 / 10 % 10),
           Nat.digitChar (z.natAbs / 600 % 10), '°', ' ',
           Nat.digitChar (z.natAbs % 600 / 10 / 10), Nat.digitChar (z.natAbs % 600 / 10 % 10),
           '.', Nat.digitChar (z.natAbs % 600 % 10), '’', ' ', 'E']
      from by simp]
    rw [parseLongitude_shape (z.natAbs / 600) (z.natAbs % 600) hD hK hDK 'E' (Or.inl rfl),
      if_pos (by decide)]
    simp only [Option.some.injEq]
    have hA : ((z.natAbs : ℕ) : ℚ) = (z : ℚ) := by
      rw [natAbs_cast_q, abs_of_pos (show (0 : ℚ) < (z : ℚ) from by exact_mod_cast hn)]
    linarith [hA, hsplit]

theorem formatA_roundtrip (q : ℚ) (h : (roundHE (q * 10)).toNat < 10000) :
    (parseANum (formatA q)).map formatA = some (formatA q) := by
  rw [parseANum_format q h]
  set r := (roundHE (q * 10)).toNat with hr
  have hnat : 10 * (r / 10) + r % 10 = r := by omega
  have hv10 : (((r / 10 : ℕ) : ℚ) + ((r % 10 : ℕ) : ℚ) / 10) * 10 = ((r : ℕ) : ℚ) := by
    have h2 : (10 : ℚ) * ((r / 10 : ℕ) : ℚ) + ((r % 10 : ℕ) : ℚ) = ((r : ℕ) : ℚ) := by
      exact_mod_cast hnat
    linarith
  have hre : roundHE ((((r / 10 : ℕ) : ℚ) + ((r % 10 : ℕ) : ℚ) / 10) * 10) = ((r : ℕ) : ℤ) :=
    roundHE_of_eq_natCast _ r hv10
  have hcond : (roundHE ((((r / 10 : ℕ) : ℚ) + ((r % 10 : ℕ) : ℚ) / 10) * 10)).toNat < 10000 := by
    rw [hre, Int.toNat_natCast]
    exact h
  simp only [Option.map_some']
  rw [formatA_eq _ hcond, formatA_eq q h, hre, Int.toNat_natCast]

theorem parseDD_reject_sign (L : List Char) (maxD : Nat) (maxM : ℚ)
    (pos neg : Char) (wm : Bool) (v : ℚ) (ispos : Bool)
    (htrim : jsTrim L = L) (hupper : L.map Char.toUpper = L) (hne : L ≠ [])
    (hb1 : ddnBranch maxD pos neg wm L = none)
    (hb2 : signBranch maxD wm L = some (v, ispos)) (hv : maxM < v) :
    parseDegreesDirection ⟨L⟩ maxD maxM pos neg wm = none := by
  simp only [parseDegreesDirection, String.toList]
  rw [htrim, hupper, if_neg hne, hb1]
  simp only [Option.orElse]
  rw [hb2]
  simp [hv]

/-- C6: the documented range boundaries hold on the nose.  Latitude
magnitude 89 parses and 90 is rejected; integer longitude 180 parses while
the texts 180.1 and 181 are rejected; the minutes grammar accepts
180° 00.0’ E and rejects 180° 06.0’ E (magnitude 180.1); bearing 360
parses and 361 is rejected.  Every rejection is the parser returning
`none`, not an exception. -/
theorem c6_boundary_magnitudes :
    parseIntegerLatitude "89" = some 89
    ∧ parseIntegerLatitude "90" = none
    ∧ parseIntegerLongitude "180" = some 180
    ∧ parseIntegerLongitude "180.1" = none
    ∧ parseIntegerLongitude "181" = none
    ∧ parseLongitude "180° 00.0’ E" = some 180
    ∧ parseLongitude "180° 06.0’ E" = none
    ∧ parseZnDeg "360" = some 360
    ∧ parseZnDeg "361" = none := by
  refine ⟨?_, ?_, ?_, ?_, ?_, ?_, ?_, ?_, ?_⟩
  · unfold parseIntegerLatitude
    rw [show ("89" : String) = (⟨['8', '9']⟩ : String) from by decide]
    rw [parseDD_of_signBranch _ 2 89 'N' 'S' false 89 true (by decide) (by decide)
      (by decide) (by decide)
      (by simp [signBranch, digitPrefixes, skipSpaces, consumeOptChar, minuteCandidates,
            firstSome, isDegreeMark, range_two, show digitsVal ['8', '9'] = 89 from by decide])
      (by norm_num)]
    norm_num
  · unfold parseIntegerLatitude
    rw [show ("90" : String) = (⟨['9', '0']⟩ : String) from by decide]
    exact parseDD_reject_sign _ 2 89 'N' 'S' false 90 true (by decide) (by decide)
      (by decide) (by decide)
      (by simp [signBranch, digitPrefixes, skipSpaces, consumeOptChar, minuteCandidates,
            firstSome, isDegreeMark, range_two, show digitsVal ['9', '0'] = 90 from by decide])
      (by norm_num)
  · unfold parseIntegerLongitude
    rw [show ("180" : String) = (⟨['1', '8', '0']⟩ : String) from by decide]
    rw [parseDD_of_signBranch _ 3 180 'E' 'W' false 180 true (by decide) (by decide)
      (by decide) (by decide)
      (by simp [signBranch, digitPrefixes, skipSpaces, consumeOptChar, minuteCandidates,
            firstSome, isDegreeMark, range_three,
            show digitsVal ['1', '8', '0'] = 180 from by decide])
      (by norm_num)]
    norm_num
  · unfold parseIntegerLongitude
    rw [show ("180.1" : String) = (⟨['1', '8', '0', '.', '1']⟩ : String) from by decide]
    exact parseDD_none _ 3 180 'E' 'W' false (by decide) (by decide) (by decide)
      (by decide) (by decide)
  · unfold parseIntegerLongitude
    rw [show ("181" : String) = (⟨['1', '8', '1']⟩ : String) from by decide]
    exact parseDD_reject_sign _ 3 180 'E' 'W' false 181 true (by decide) (by decide)
      (by decide) (by decide)
      (by simp [signBranch, digitPrefixes, skipSpaces, consumeOptChar, minuteCandidates,
            firstSome, isDegreeMark, range_three,
            show digitsVal ['1', '8', '1'] = 181 from by decide])
      (by norm_num)
  · rw [show ("180° 00.0’ E" : String)
        = (⟨['1', '8', '0', '°', ' ', '0', '0', '.', '0', '’', ' ', 'E']⟩ : String)
      from by decide]
    simpa [Nat.digitChar] using
      parseLongitude_shape 180 0 (by norm_num) (by norm_num) (by norm_num) 'E' (Or.inl rfl)
  · unfold parseLongitude
    rw [show ("180° 06.0’ E" : String)
        = (⟨['1', '8', '0', '°', ' ', '0', '6', '.', '0', '’', ' ', 'E']⟩ : String)
      from by decide]
    exact parseDD_reject _ 3 180 'E' 'W' true _ _ (by decide) (by decide) (by decide)
      (ddnBranch_minLon 1 8 0 0 6 0 (by norm_num) (by norm_num) (by norm_num) (by norm_num)
        (by norm_num) (by norm_num) 'E' (Or.inl rfl))
      (by push_cast; norm_num)
  · decide
  · decide

/-- C10: the minutes group of the longitude-with-minutes grammar is not
required to be below 60.  Any 1–2 digit whole-minutes value up to 99, with
an optional tenths digit, is accepted, and the parsed value is
`degrees + minutes/60`; the only gate beyond the regex is the total
magnitude.  Stated here for a zero-degree text, where any minutes value up
to 99 passes the magnitude gate. -/
theorem c10_minutes_up_to_99 :
    (∀ m t : Nat, m ≤ 99 → t ≤ 9 →
      parseLongitude ⟨['0', ' ', Nat.digitChar (m / 10), Nat.digitChar (m % 10), '.',
          Nat.digitChar t, ' ', 'E']⟩
        = some (((m : ℚ) + (t : ℚ) / 10) / 60))
    ∧ (∀ m : Nat, m ≤ 99 →
      parseLongitude ⟨['0', ' ', Nat.digitChar (m / 10), Nat.digitChar (m % 10), ' ', 'E']⟩
        = some ((m : ℚ) / 60)) := by
  constructor
  · intro m t hm ht
    have hm1 : m / 10 < 10 := by omega
    have hm2 : m % 10 < 10 := by omega
    have ht10 : t < 10 := by omega
    have hb := ddnBranch_minFrac 0 (m / 10) (m % 10) t (by norm_num) hm1 hm2 ht10
      'E' (Or.inl rfl)
    rw [show Nat.digitChar 0 = '0' from by decide] at hb
    have hA : ((0 : ℕ) : ℚ) + ((((10 * (m / 10) + m % 10 : ℕ)) : ℚ) + (t : ℚ) / 10) / 60
        = ((m : ℚ) + (t : ℚ) / 10) / 60 := by
      rw [show 10 * (m / 10) + m % 10 = m from by omega]
      push_cast
      ring
    have hv : ¬((180 : ℚ) < ((0 : ℕ) : ℚ)
        + ((((10 * (m / 10) + m % 10 : ℕ)) : ℚ) + (t : ℚ) / 10) / 60) := by
      rw [hA]
      intro hcon
      rw [lt_div_iff₀ (show (0 : ℚ) < 60 from by norm_num)] at hcon
      have hm9 : (m : ℚ) ≤ 99 := by exact_mod_cast hm
      have ht9 : (t : ℚ) ≤ 9 := by exact_mod_cast ht
      have ht0 : (0 : ℚ) ≤ (t : ℚ) := by positivity
      linarith
    have hs1 : (10 : ℚ) * ((m / 10 : ℕ) : ℚ) + ((m % 10 : ℕ) : ℚ) = (m : ℚ) := by
      exact_mod_cast (show 10 * (m / 10) + m % 10 = m from by omega)
    unfold parseLongitude
    rw [parseDD_of_ddnBranch _ 3 180 'E' 'W' true _ (decide ('E' = 'E'))
      (by simpa using jsTrim_sandwich '0' 'E'
            [' ', Nat.digitChar (m / 10), Nat.digitChar (m % 10), '.', Nat.digitChar t, ' ']
            (by decide) (by decide))
      (by simp [digitChar_toUpper _ hm1, digitChar_toUpper _ hm2, digitChar_toUpper _ ht10,
            toUpper_space, toUpper_dot, toUpper_E, show '0'.toUpper = '0' from by decide])
      (by simp) hb hv]
    simp [hA]
    linarith [hs1]
  · intro m hm
    have hm1 : m / 10 < 10 := by omega
    have hm2 : m % 10 < 10 := by omega
    have hb := ddnBranch_minWhole 0 (m / 10) (m % 10) (by norm_num) hm1 hm2 'E' (Or.inl rfl)
    rw [show Nat.digitChar 0 = '0' from by decide] at hb
    have hA : ((0 : ℕ) : ℚ) + ((((10 * (m / 10) + m % 10 : ℕ)) : ℚ) + 0) / 60
        = (m : ℚ) / 60 := by
      rw [show 10 * (m / 10) + m % 10 = m from by omega]
      push_cast
      ring
    have hv : ¬((180 : ℚ) < ((0 : ℕ) : ℚ)
        + ((((10 * (m / 10) + m % 10 : ℕ)) : ℚ) + 0) / 60) := by
      rw [hA]
      intro hcon
      rw [lt_div_iff₀ (show (0 : ℚ) < 60 from by norm_num)] at hcon
      have hm9 : (m : ℚ) ≤ 99 := by exact_mod_cast hm
      linarith
    unfold parseLongitude
    rw [parseDD_of_ddnBranch _ 3 180 'E' 'W' true _ (decide ('E' = 'E'))
      (by simpa using jsTrim_sandwich '0' 'E'
            [' ', Nat.digitChar (m / 10), Nat.digitChar (m % 10), ' ']
            (by decide) (by decide))
      (by simp [digitChar_toUpper _ hm1, digitChar_toUpper _ hm2,
            toUpper_space, toUpper_E, show '0'.toUpper = '0' from by decide])
      (by simp) hb hv]
    have hs1 : (10 : ℚ) * ((m / 10 : ℕ) : ℚ) + ((m % 10 : ℕ) : ℚ) = (m : ℚ) := by
      exact_mod_cast (show 10 * (m / 10) + m % 10 = m from by omega)
    simp [hA]
    linarith [hs1]

/-- C10 witness: the concrete text 0° 99.0’ E — whole minutes 99 — parses
to 99/60 of a degree. -/
theorem c10_minutes_up_to_99_witness :
    parseLongitude ⟨['0', ' ', Nat.digitChar (99 / 10), Nat.digitChar (99 % 10), '.',
        Nat.digitChar 0, ' ', 'E']⟩
      = some ((((99 : ℕ) : ℚ) + ((0 : ℕ) : ℚ) / 10) / 60) :=
  c10_minutes_up_to_99.1 99 0 (by norm_num) (by norm_num)

/-- C3 counterexample: the claim says zero is treated as positive and gets
the positive-direction letter; in fact every formatter appends no letter
at all for the value zero. -/
theorem c3_zero_has_no_direction_letter :
    formatIntegerLatitude 0 = "00°"
    ∧ formatIntegerLongitude 0 = "000°"
    ∧ formatLatitude 0 = "00° 00.0’"
    ∧ formatLongitude 0 = "000° 00.0’"
    ∧ formatIntegerLatitude 0 ≠ "00° N" := by
  have h1 : formatIntegerLatitude 0 = "00°" := by
    rw [show (0 : ℚ) = ((0 : ℤ) : ℚ) from by norm_num, formatIntegerLatitude_eq 0 (by decide)]
    decide
  have h2 : formatIntegerLongitude 0 = "000°" := by
    rw [show (0 : ℚ) = ((0 : ℤ) : ℚ) from by norm_num, formatIntegerLongitude_eq 0 (by decide)]
    decide
  have h3 : formatLatitude 0 = "00° 00.0’" := by
    unfold formatLatitude
    rw [show (0 : ℚ) = ((0 : ℤ) : ℚ) / 600 from by norm_num,
      formatDegreesMinutesDirection_eq 0 2 'N' 'S' (by decide)]
    decide
  have h4 : formatLongitude 0 = "000° 00.0’" := by
    unfold formatLongitude
    rw [show (0 : ℚ) = ((0 : ℤ) : ℚ) / 600 from by norm_num,
      formatDegreesMinutesDirection_eq 0 3 'E' 'W' (by decide)]
    decide
  refine ⟨h1, h2, h3, h4, ?_⟩
  rw [h1]
  decide

/-- C3 (amended): each formatter zero-pads the degree portion to the
field's fixed digit width, renders minutes (when applicable) with exactly
one fractional digit, and appends a direction letter chosen by the sign of
the value — the positive letter for positive values, the negative letter
for negative values, and NO letter at all for zero. -/
theorem c3_formatter_shape :
    (∀ n : ℤ, n.natAbs < 100 → formatIntegerLatitude (n : ℚ)
        = ⟨[Nat.digitChar (n.natAbs / 10), Nat.digitChar (n.natAbs % 10), '°']
            ++ (if 0 < n then [' ', 'N'] else if n < 0 then [' ', 'S'] else [])⟩)
    ∧ (∀ n : ℤ, n.natAbs < 1000 → formatIntegerLongitude (n : ℚ)
        = ⟨[Nat.digitChar (n.natAbs / 100), Nat.digitChar (n.natAbs / 10 % 10),
            Nat.digitChar (n.natAbs % 10), '°']
            ++ (if 0 < n then [' ', 'E'] else if n < 0 then [' ', 'W'] else [])⟩)
    ∧ (∀ z : ℤ, z.natAbs / 600 < 100 → formatLatitude ((z : ℚ) / 600)
        = ⟨localeNatChars 2 (z.natAbs / 600) ++ ['°', ' ']
            ++ [Nat.digitChar (z.natAbs % 600 / 10 / 10),
                Nat.digitChar (z.natAbs % 600 / 10 % 10), '.',
                Nat.digitChar (z.natAbs % 600 % 10)] ++ ['’']
            ++ (if 0 < z then [' ', 'N'] else if z < 0 then [' ', 'S'] else [])⟩)
    ∧ (∀ z : ℤ, z.natAbs / 600 < 1000 → formatLongitude ((z : ℚ) / 600)
        = ⟨localeNatChars 3 (z.natAbs / 600) ++ ['°', ' ']
            ++ [Nat.digitChar (z.natAbs % 600 / 10 / 10),
                Nat.digitChar (z.natAbs % 600 / 10 % 10), '.',
                Nat.digitChar (z.natAbs % 600 % 10)] ++ ['’']
            ++ (if 0 < z then [' ', 'E'] else if z < 0 then [' ', 'W'] else [])⟩) := by
  refine ⟨fun n h => formatIntegerLatitude_eq n h,
    fun n h => formatIntegerLongitude_eq n h, ?_, ?_⟩
  · intro z h
    unfold formatLatitude
    rw [formatDegreesMinutesDirection_eq z 2 'N' 'S' (by omega)]
  · intro z h
    unfold formatLongitude
    rw [formatDegreesMinutesDirection_eq z 3 'E' 'W' h]

/-- C3 witness: the south-latitude value −5° formats as 05° S — zero-padded
to two digits with the negative-direction letter. -/
theorem c3_formatter_shape_witness :
    formatIntegerLatitude ((-5 : ℤ) : ℚ)
      = ⟨[Nat.digitChar ((-5 : ℤ).natAbs / 10), Nat.digitChar ((-5 : ℤ).natAbs % 10), '°']
          ++ (if 0 < (-5 : ℤ) then [' ', 'N'] else if (-5 : ℤ) < 0 then [' ', 'S'] else [])⟩ :=
  c3_formatter_shape.1 (-5) (by decide)

/-- C4 (amended): every azimuth the bearing handler stores in the draft is
`radians` of an integer degree value of at most 360, so it lies in the
CLOSED interval [0, 2π].  The claim's half-open interval [0, 2π) is wrong
at the right endpoint: the accepted input 360 stores exactly 2π. -/
theorem c4_stored_azimuth_range (t : String) (s : AppState) (r : ℝ)
    (h : (updateZnS t s).draft.Zn = some r) :
    0 ≤ r ∧ r ≤ 2 * Real.pi := by
  by_cases h1 : jsTrim t.data = []
  · simp [updateZnS, String.toList, h1] at h
    subst h
    exact ⟨le_refl 0, by positivity⟩
  · rcases hz : parseZnDeg t with _ | d
    · simp [updateZnS, String.toList, h1, hz] at h
    · have hd : d ≤ 360 := parseZnDeg_le t d hz
      simp [updateZnS, String.toList, h1, hz] at h
      subst h
      constructor
      · unfold radians
        positivity
      · unfold radians
        have hd2 : (d : ℝ) ≤ 360 := by exact_mod_cast hd
        nlinarith [Real.pi_pos]

/-- C4 counterexample: the bearing text 360 is accepted by the draft
workflow and the stored azimuth is exactly 2π, which lies outside the
half-open interval [0, 2π). -/
theorem c4_bearing_360_reaches_two_pi :
    parseZnDeg "360" = some 360
    ∧ (updateZnS "360" stateZero).draft.Zn = some (radians ((360 : ℕ) : ℝ))
    ∧ radians ((360 : ℕ) : ℝ) = 2 * Real.pi
    ∧ ¬(radians ((360 : ℕ) : ℝ) < 2 * Real.pi) := by
  have hp : parseZnDeg "360" = some 360 := by decide
  have hr : radians ((360 : ℕ) : ℝ) = 2 * Real.pi := by
    unfold radians
    rw [show ((360 : ℕ) : ℝ) = 360 from by norm_num]
    ring
  refine ⟨hp, ?_, hr, by rw [hr]; exact lt_irrefl _⟩
  simp [updateZnS, String.toList,
    show ¬(jsTrim ("360" : String).data = []) from by decide, hp]

/-- C4 witness: the azimuth stored for the bearing text 360 lies in
[0, 2π]. -/
theorem c4_stored_azimuth_range_witness :
    0 ≤ radians ((360 : ℕ) : ℝ) ∧ radians ((360 : ℕ) : ℝ) ≤ 2 * Real.pi :=
  c4_stored_azimuth_range "360" stateZero (radians ((360 : ℕ) : ℝ))
    (by simp [updateZnS, String.toList,
      show ¬(jsTrim ("360" : String).data = []) from by decide,
      show parseZnDeg "360" = some 360 from by decide])

/-- C5 (amended): format-parse-format reproduces the canonical text for
every in-range value of the integer-latitude, integer-longitude,
longitude-with-minutes and bearing grammars, and for the distance grammar
only below 1000 (tenths-rounded value below 10000): from 1000.0’ on the
formatter inserts a grouping comma that its own parser rejects. -/
theorem c5_roundtrip :
    (∀ n : ℤ, |n| ≤ 89 →
      (parseIntegerLatitude (formatIntegerLatitude (n : ℚ))).map formatIntegerLatitude
        = some (formatIntegerLatitude (n : ℚ)))
    ∧ (∀ n : ℤ, |n| ≤ 180 →
      (parseIntegerLongitude (formatIntegerLongitude (n : ℚ))).map formatIntegerLongitude
        = some (formatIntegerLongitude (n : ℚ)))
    ∧ (∀ z : ℤ, |z| ≤ 108000 →
      (parseLongitude (formatLongitude ((z : ℚ) / 600))).map formatLongitude
        = some (formatLongitude ((z : ℚ) / 600)))
    ∧ (∀ d : ℕ, d ≤ 360 → (parseZnDeg (formatZn d)).map formatZn = some (formatZn d))
    ∧ (∀ q : ℚ, (roundHE (q * 10)).toNat < 10000 →
      (parseANum (formatA q)).map formatA = some (formatA q)) := by
  refine ⟨?_, ?_, ?_, ?_, fun q h => formatA_roundtrip q h⟩
  · intro n h
    rw [parseIntegerLatitude_format n h]
    simp
  · intro n h
    rw [parseIntegerLongitude_format n h]
    simp
  · intro z h
    rw [parseLongitude_format z h]
    simp
  · intro d h
    rw [parseZnDeg_format d h]
    simp

/-- C5 counterexample: the distance 1000 parses, formats to the grouped
text 1,000.0’, and reparsing that canonical text fails — so
format-parse-format is not the identity on the distance grammar. -/
theorem c5_grouping_comma_breaks_distance_roundtrip :
    parseANum "1000" = some 1000
    ∧ formatA 1000 = "1,000.0’"
    ∧ parseANum (formatA 1000) = none := by
  have h1 : jsTrim ("1000" : String).data = ['1', '0', '0', '0'] := by decide
  have hp : parseANum "1000" = some 1000 := by
    simp [parseANum, String.toList, h1, skipSpaces, consumeOptChar, isMinuteMark,
      show digitsVal ['1', '0', '0', '0'] = 1000 from by decide]
  have hfa : formatA 1000 = "1,000.0’" := by
    have hr : roundHE ((1000 : ℚ) * 10) = ((10000 : ℕ) : ℤ) :=
      roundHE_of_eq_natCast _ 10000 (by norm_num)
    simp only [formatA, localeTenthsChars, hr, Int.toNat_natCast]
    decide
  have hn : parseANum "1,000.0’" = none := by decide
  exact ⟨hp, hfa, by rw [hfa]; exact hn⟩

/-- C5 witness: the integer latitude 35 round-trips through its formatter
and parser. -/
theorem c5_roundtrip_witness :
    (parseIntegerLatitude (formatIntegerLatitude ((35 : ℤ) : ℚ))).map formatIntegerLatitude
      = some (formatIntegerLatitude ((35 : ℤ) : ℚ)) :=
  c5_roundtrip.1 35 (by decide)

/-! ## IEEE-value computation lemmas for the Intersection Engine -/

theorem JSVal.add_fin (a b : ℝ) : JSVal.add (.fin a) (.fin b) = .fin (a + b) := rfl

theorem JSVal.neg_fin (a : ℝ) : JSVal.neg (.fin a) = .fin (-a) := rfl

theorem JSVal.sub_fin (a b : ℝ) : JSVal.sub (.fin a) (.fin b) = .fin (a - b) := by
  simp [JSVal.sub, JSVal.neg, JSVal.add, sub_eq_add_neg]

theorem JSVal.mul_fin (a b : ℝ) : JSVal.mul (.fin a) (.fin b) = .fin (a * b) := by
  simp [JSVal.mul]

theorem JSVal.div_fin (a b : ℝ) (hb : b ≠ 0) :
    JSVal.div (.fin a) (.fin b) = .fin (a / b) := by
  simp [JSVal.div, hb]

theorem JSVal.isNaN_fin (a : ℝ) : JSVal.isNaN (.fin a) = false := rfl

theorem JSVal.lt_fin (a b : ℝ) : JSVal.lt (.fin a) (.fin b) = decide (a < b) := by
  by_cases h : a < b <;> simp [JSVal.lt, h]

theorem rhumbPoint_eq (lat lon Zn a : ℝ) (hc : Real.cos (radians lat) ≠ 0) :
    rhumbPoint lat lon Zn a
      = (.fin (rhumbLatR lat Zn a), .fin (rhumbLonR lat lon Zn a)) := by
  simp only [rhumbPoint, rhumbLatR, rhumbLonR]
  rw [JSVal.div_fin _ _ hc, JSVal.mul_fin,
    JSVal.div_fin _ _ (show (60 : ℝ) ≠ 0 from by norm_num), JSVal.add_fin]

theorem lopDeltaLat (l : LOP) :
    rhumbLatR l.aLat (l.Zn - 2 * Real.pi / 6) (2 * l.a)
      - rhumbLatR l.aLat (l.Zn + 2 * Real.pi / 6) (2 * l.a)
      = Real.sqrt 3 * Real.sin l.Zn * l.a / 30 := by
  unfold rhumbLatR
  rw [show (2 : ℝ) * Real.pi / 6 = Real.pi / 3 from by ring,
    Real.cos_sub, Real.cos_add, Real.cos_pi_div_three, Real.sin_pi_div_three]
  ring

theorem lopDeltaLon (l : LOP) :
    rhumbLonR l.aLat l.aLon (l.Zn - 2 * Real.pi / 6) (2 * l.a)
      - rhumbLonR l.aLat l.aLon (l.Zn + 2 * Real.pi / 6) (2 * l.a)
      = -(Real.sqrt 3 * Real.cos l.Zn * (l.a / Real.cos (radians l.aLat)) / 30) := by
  unfold rhumbLonR
  rw [show (2 : ℝ) * Real.pi / 6 = Real.pi / 3 from by ring,
    Real.sin_sub, Real.sin_add, Real.cos_pi_div_three, Real.sin_pi_div_three]
  ring

theorem lopDeltaLon_ne (l : LOP) (hc : Real.cos (radians l.aLat) ≠ 0)
    (hz : Real.cos l.Zn ≠ 0) (ha : l.a ≠ 0) :
    rhumbLonR l.aLat l.aLon (l.Zn - 2 * Real.pi / 6) (2 * l.a)
      - rhumbLonR l.aLat l.aLon (l.Zn + 2 * Real.pi / 6) (2 * l.a) ≠ 0 := by
  rw [lopDeltaLon]
  have hs3 : (0 : ℝ) < Real.sqrt 3 := Real.sqrt_pos.mpr (by norm_num)
  exact neg_ne_zero.mpr (div_ne_zero
    (mul_ne_zero (mul_ne_zero (ne_of_gt hs3) hz) (div_ne_zero ha hc))
    (by norm_num))

theorem lopM_closed (l : LOP)
    (hz : Real.cos l.Zn ≠ 0) (ha : l.a ≠ 0) :
    lopM l = -(Real.cos (radians l.aLat) * Real.sin l.Zn / Real.cos l.Zn) := by
  unfold lopM
  rw [lopDeltaLat, lopDeltaLon]
  have hs3 : Real.sqrt 3 ≠ 0 := ne_of_gt (Real.sqrt_pos.mpr (by norm_num))
  field_simp
  ring

theorem lopCoeffs_eq (l : LOP) (hc : Real.cos (radians l.aLat) ≠ 0)
    (hden : rhumbLonR l.aLat l.aLon (l.Zn - 2 * Real.pi / 6) (2 * l.a)
        - rhumbLonR l.aLat l.aLon (l.Zn + 2 * Real.pi / 6) (2 * l.a) ≠ 0) :
    lopCoeffs l = (.fin (lopM l), .fin (lopB l)) := by
  simp only [lopCoeffs, lopM, lopB]
  rw [rhumbPoint_eq _ _ _ _ hc, rhumbPoint_eq _ _ _ _ hc]
  rw [JSVal.sub_fin, JSVal.sub_fin, JSVal.div_fin _ _ hden, JSVal.mul_fin, JSVal.sub_fin]

/-- C1 (amended): the engine derives each FixLine's linear equation from
two auxiliary points offset ±2π/6 — that is ±60°, not the ±120° the
specification states — from the azimuth at twice the fix distance, and the
fitted finite coefficients put both auxiliary points exactly on the line
lat = m·lon + b; for every pair the recorded intersection solves
lonIntercept = (b_j − b_i)/(m_i − m_j) and
latIntercept = m_i·lonIntercept + b_i. -/
theorem c1_engine_line_fit :
    (∀ l : LOP, Real.cos (radians l.aLat) ≠ 0 → Real.cos l.Zn ≠ 0 → l.a ≠ 0 →
      ∃ m b : ℝ, lopCoeffs l = (.fin m, .fin b)
        ∧ rhumbLatR l.aLat (l.Zn + 2 * Real.pi / 6) (2 * l.a)
            = m * rhumbLonR l.aLat l.aLon (l.Zn + 2 * Real.pi / 6) (2 * l.a) + b
        ∧ rhumbLatR l.aLat (l.Zn - 2 * Real.pi / 6) (2 * l.a)
            = m * rhumbLonR l.aLat l.aLon (l.Zn - 2 * Real.pi / 6) (2 * l.a) + b)
    ∧ (∀ sh : Sheet, ∀ mi bi mj bj : ℝ, ∀ x y la lo : JSVal,
      pairCandidate sh (.fin mi, .fin bi) (.fin mj, .fin bj) = some (x, y, la, lo) →
      mi - mj ≠ 0 →
      lo = .fin ((bj - bi) / (mi - mj))
        ∧ la = .fin (mi * ((bj - bi) / (mi - mj)) + bi)) := by
  constructor
  · intro l hc hz ha
    have hden := lopDeltaLon_ne l hc hz ha
    have key : ∀ La Lb Ga Gb : ℝ, Gb - Ga ≠ 0 →
        Lb = (Lb - La) / (Gb - Ga) * Gb + (La - (Lb - La) / (Gb - Ga) * Ga) := by
      intro La Lb Ga Gb hne
      field_simp
      ring
    refine ⟨lopM l, lopB l, lopCoeffs_eq l hc hden, ?_, ?_⟩
    · unfold lopB
      ring
    · unfold lopB lopM
      exact key _ _ _ _ hden
  · intro sh mi bi mj bj x y la lo h hm
    simp only [pairCandidate] at h
    rw [JSVal.sub_fin, JSVal.sub_fin, JSVal.div_fin _ _ hm, JSVal.mul_fin,
      JSVal.add_fin] at h
    simp only [JSVal.isNaN_fin, Bool.false_eq_true, if_false] at h
    split_ifs at h with hview
    simp only [Option.some.injEq, Prod.mk.injEq] at h
    exact ⟨h.2.2.2.symm, h.2.2.1.symm⟩

/-- C1 counterexample: for the concrete FixLine due north of the origin
the engine's auxiliary points (offsets ±2π/6, i.e. ±60°) give the
coefficients (0, 1/2), while the specification's ±120° offsets would give
(0, −1/2) — the two derivations disagree. -/
theorem c1_offsets_are_sixty_not_onetwenty :
    lopCoeffs lopNorth = (.fin 0, .fin (1 / 2))
    ∧ lopCoeffsSpecOneTwenty lopNorth = (.fin 0, .fin (-(1 / 2)))
    ∧ lopCoeffs lopNorth ≠ lopCoeffsSpecOneTwenty lopNorth := by
  have hrad0 : radians 0 = 0 := by
    unfold radians
    ring
  have hc : Real.cos (radians lopNorth.aLat) ≠ 0 := by
    rw [show lopNorth.aLat = (0 : ℝ) from rfl, hrad0, Real.cos_zero]
    norm_num
  have hz : Real.cos lopNorth.Zn ≠ 0 := by
    rw [show lopNorth.Zn = (0 : ℝ) from rfl, Real.cos_zero]
    norm_num
  have ha : lopNorth.a ≠ 0 := by
    rw [show lopNorth.a = (30 : ℝ) from rfl]
    norm_num
  have e1 : lopCoeffs lopNorth = (.fin 0, .fin (1 / 2)) := by
    rw [lopCoeffs_eq lopNorth hc (lopDeltaLon_ne lopNorth hc hz ha)]
    simp only [Prod.mk.injEq, JSVal.fin.injEq]
    refine ⟨?_, ?_⟩
    · rw [lopM_closed lopNorth hz ha, show lopNorth.Zn = (0 : ℝ) from rfl, Real.sin_zero]
      ring
    · unfold lopB
      rw [lopM_closed lopNorth hz ha, show lopNorth.Zn = (0 : ℝ) from rfl, Real.sin_zero]
      unfold rhumbLatR
      rw [show lopNorth.aLat = (0 : ℝ) from rfl, show lopNorth.a = (30 : ℝ) from rfl]
      rw [show (0 : ℝ) + 2 * Real.pi / 6 = Real.pi / 3 from by ring, Real.cos_pi_div_three]
      ring
  have hsin23 : Real.sin (2 * Real.pi / 3) = Real.sqrt 3 / 2 := by
    rw [show (2 : ℝ) * Real.pi / 3 = Real.pi - Real.pi / 3 from by ring,
      Real.sin_pi_sub, Real.sin_pi_div_three]
  have hcos23 : Real.cos (2 * Real.pi / 3) = -(1 / 2) := by
    rw [show (2 : ℝ) * Real.pi / 3 = Real.pi - Real.pi / 3 from by ring,
      Real.cos_pi_sub, Real.cos_pi_div_three]
  have e2 : lopCoeffsSpecOneTwenty lopNorth = (.fin 0, .fin (-(1 / 2))) := by
    simp only [lopCoeffsSpecOneTwenty]
    rw [rhumbPoint_eq _ _ _ _ hc, rhumbPoint_eq _ _ _ _ hc]
    rw [JSVal.sub_fin, JSVal.sub_fin]
    have hlat : ∀ θ : ℝ, rhumbLatR lopNorth.aLat θ (2 * lopNorth.a) = Real.cos θ := by
      intro θ
      unfold rhumbLatR
      rw [show lopNorth.aLat = (0 : ℝ) from rfl, show lopNorth.a = (30 : ℝ) from rfl]
      ring
    have hlon : ∀ θ : ℝ,
        rhumbLonR lopNorth.aLat lopNorth.aLon θ (2 * lopNorth.a) = Real.sin θ := by
      intro θ
      unfold rhumbLonR
      rw [show lopNorth.aLat = (0 : ℝ) from rfl, show lopNorth.aLon = (0 : ℝ) from rfl,
        show lopNorth.a = (30 : ℝ) from rfl, hrad0, Real.cos_zero]
      ring
    rw [hlat, hlat, hlon, hlon, show lopNorth.Zn = (0 : ℝ) from rfl]
    rw [zero_sub, zero_add, Real.cos_neg, Real.sin_neg, sub_self]
    have hdenne : -Real.sin (2 * Real.pi / 3) - Real.sin (2 * Real.pi / 3) ≠ 0 := by
      rw [hsin23]
      have hs3 : (0 : ℝ) < Real.sqrt 3 := Real.sqrt_pos.mpr (by norm_num)
      intro hcon
      have : Real.sqrt 3 = 0 := by linarith
      linarith
    rw [JSVal.div_fin _ _ hdenne, zero_div, JSVal.mul_fin, JSVal.sub_fin]
    simp only [Prod.mk.injEq, JSVal.fin.injEq]
    refine ⟨by trivial, ?_⟩
    rw [hcos23]
    ring
  refine ⟨e1, e2, ?_⟩
  rw [e1, e2]
  simp only [ne_eq, Prod.mk.injEq, JSVal.fin.injEq, not_and]
  intro _
  norm_num

/-- C1 witness: the due-north FixLine has finite fitted coefficients and
both auxiliary points lie on the fitted line. -/
theorem c1_engine_line_fit_witness :
    ∃ m b : ℝ, lopCoeffs lopNorth = (.fin m, .fin b)
      ∧ rhumbLatR lopNorth.aLat (lopNorth.Zn + 2 * Real.pi / 6) (2 * lopNorth.a)
          = m * rhumbLonR lopNorth.aLat lopNorth.aLon (lopNorth.Zn + 2 * Real.pi / 6)
              (2 * lopNorth.a) + b
      ∧ rhumbLatR lopNorth.aLat (lopNorth.Zn - 2 * Real.pi / 6) (2 * lopNorth.a)
          = m * rhumbLonR lopNorth.aLat lopNorth.aLon (lopNorth.Zn - 2 * Real.pi / 6)
              (2 * lopNorth.a) + b :=
  c1_engine_line_fit.1 lopNorth
    (by show Real.cos (radians 0) ≠ 0
        rw [show radians 0 = 0 from by unfold radians; ring, Real.cos_zero]
        norm_num)
    (by show Real.cos 0 ≠ 0
        rw [Real.cos_zero]
        norm_num)
    (by show (30 : ℝ) ≠ 0
        norm_num)

/-! ## The engine on parallel and coincident-slope pairs -/

theorem projectJS_fst_negInf (sh : Sheet) (la : JSVal) (hlon : 0 < lonScaleOf sh) :
    (projectJS sh la .negInf).1 = .negInf := by
  simp only [projectJS]
  rw [show JSVal.sub .negInf (.fin sh.ctrLon) = .negInf from by
    simp [JSVal.sub, JSVal.neg, JSVal.add]]
  rw [show JSVal.mul .negInf (.fin (lonScaleOf sh)) = .negInf from by
    simp [JSVal.mul, hlon, hlon.ne']]
  rw [show JSVal.add (.fin (sh.width / 2)) .negInf = .negInf from by simp [JSVal.add]]

theorem projectJS_fst_posInf (sh : Sheet) (la : JSVal) (hlon : 0 < lonScaleOf sh) :
    (projectJS sh la .posInf).1 = .posInf := by
  simp only [projectJS]
  rw [show JSVal.sub .posInf (.fin sh.ctrLon) = .posInf from by
    simp [JSVal.sub, JSVal.neg, JSVal.add]]
  rw [show JSVal.mul .posInf (.fin (lonScaleOf sh)) = .posInf from by
    simp [JSVal.mul, hlon, hlon.ne']]
  rw [show JSVal.add (.fin (sh.width / 2)) .posInf = .posInf from by simp [JSVal.add]]

theorem pairCandidate_sameM (sh : Sheet) (m b1 b2 : ℝ)
    (hlon : 0 < lonScaleOf sh) :
    pairCandidate sh (.fin m, .fin b1) (.fin m, .fin b2) = none := by
  simp only [pairCandidate]
  rw [JSVal.sub_fin, JSVal.sub_fin, sub_self]
  by_cases hb : b2 - b1 = 0
  · rw [hb, show JSVal.div (.fin 0) (.fin 0) = .nan from by simp [JSVal.div]]
    simp [JSVal.isNaN]
  · rcases lt_or_gt_of_ne hb with hneg | hpos
    · rw [show JSVal.div (.fin (b2 - b1)) (.fin 0) = .negInf from by
        simp [JSVal.div, hb, show ¬(0 < b2 - b1) from by linarith]]
      by_cases hm : m = 0
      · rw [show JSVal.mul (.fin m) .negInf = .nan from by simp [JSVal.mul, hm],
          show JSVal.add .nan (.fin b1) = .nan from by simp [JSVal.add]]
        simp [JSVal.isNaN]
      · rcases lt_or_gt_of_ne hm with hmneg | hmpos
        · rw [show JSVal.mul (.fin m) .negInf = .posInf from by
            simp [JSVal.mul, hm, show ¬(0 < m) from by linarith],
            show JSVal.add .posInf (.fin b1) = .posInf from by simp [JSVal.add]]
          simp only [show JSVal.isNaN .negInf = false from rfl,
            show JSVal.isNaN .posInf = false from rfl, Bool.false_eq_true, if_false]
          rw [projectJS_fst_negInf sh _ hlon]
          simp [JSVal.lt]
        · rw [show JSVal.mul (.fin m) .negInf = .negInf from by simp [JSVal.mul, hm, hmpos],
            show JSVal.add .negInf (.fin b1) = .negInf from by simp [JSVal.add]]
          simp only [show JSVal.isNaN .negInf = false from rfl, Bool.false_eq_true, if_false]
          rw [projectJS_fst_negInf sh _ hlon]
          simp [JSVal.lt]
    · rw [show JSVal.div (.fin (b2 - b1)) (.fin 0) = .posInf from by
        simp [JSVal.div, hb, hpos]]
      by_cases hm : m = 0
      · rw [show JSVal.mul (.fin m) .posInf = .nan from by simp [JSVal.mul, hm],
          show JSVal.add .nan (.fin b1) = .nan from by simp [JSVal.add]]
        simp [JSVal.isNaN]
      · rcases lt_or_gt_of_ne hm with hmneg | hmpos
        · rw [show JSVal.mul (.fin m) .posInf = .negInf from by
            simp [JSVal.mul, hm, show ¬(0 < m) from by linarith],
            show JSVal.add .negInf (.fin b1) = .negInf from by simp [JSVal.add]]
          simp only [show JSVal.isNaN .negInf = false from rfl, Bool.false_eq_true, if_false]
          rw [projectJS_fst_posInf sh _ hlon]
          simp [JSVal.lt]
        · rw [show JSVal.mul (.fin m) .posInf = .posInf from by simp [JSVal.mul, hm, hmpos],
            show JSVal.add .posInf (.fin b1) = .posInf from by simp [JSVal.add]]
          simp only [show JSVal.isNaN .posInf = false from rfl, Bool.false_eq_true, if_false]
          rw [projectJS_fst_posInf sh _ hlon]
          simp [JSVal.lt]

/-- C7 (amended): a pair of FixLines with identical azimuth AND identical
assumed latitude (away from the poles, with nonzero distances and an
azimuth not due east/west, on a sheet with positive longitude scale) gets
identical fitted slopes, and the engine reports zero intersections for the
pair without a division error: the zero slope difference makes the solved
intercept NaN or infinite and the candidate is silently discarded.
Identical azimuth alone does not suffice — the slope also depends on the
assumed latitude. -/
theorem c7_parallel_same_assumed_latitude (sh : Sheet) (l1 l2 : LOP)
    (hZ : l2.Zn = l1.Zn) (hL : l2.aLat = l1.aLat)
    (hc : Real.cos (radians l1.aLat) ≠ 0)
    (hz : Real.cos l1.Zn ≠ 0) (ha1 : l1.a ≠ 0) (ha2 : l2.a ≠ 0)
    (hlon : 0 < lonScaleOf sh) :
    intersectionsOf sh [l1, l2] = [] := by
  have hc2 : Real.cos (radians l2.aLat) ≠ 0 := by
    rw [hL]
    exact hc
  have hz2 : Real.cos l2.Zn ≠ 0 := by
    rw [hZ]
    exact hz
  have hm : lopM l2 = lopM l1 := by
    rw [lopM_closed l1 hz ha1, lopM_closed l2 hz2 ha2, hZ, hL]
  unfold intersectionsOf
  rw [show ([l1, l2].map lopCoeffs) = [lopCoeffs l1, lopCoeffs l2] from by simp]
  rw [lopCoeffs_eq l1 hc (lopDeltaLon_ne l1 hc hz ha1),
    lopCoeffs_eq l2 hc2 (lopDeltaLon_ne l2 hc2 hz2 ha2), hm]
  simp [pairsOf, pairCandidate_sameM sh (lopM l1) (lopB l1) (lopB l2) hlon]

/-- C7 witness: two due-north FixLines with the same azimuth and assumed
latitude produce no intersection on the concrete sheet. -/
theorem c7_parallel_same_assumed_latitude_witness :
    intersectionsOf sheetZero [lopNorth, lopNorthB] = [] :=
  c7_parallel_same_assumed_latitude sheetZero lopNorth lopNorthB rfl rfl
    (by show Real.cos (radians 0) ≠ 0
        rw [show radians 0 = 0 from by unfold radians; ring, Real.cos_zero]
        norm_num)
    (by show Real.cos 0 ≠ 0
        rw [Real.cos_zero]
        norm_num)
    (by show (30 : ℝ) ≠ 0
        norm_num)
    (by show (40 : ℝ) ≠ 0
        norm_num)
    (by show (0 : ℝ) < lonScaleOf sheetZero
        unfold lonScaleOf latScaleOf
        rw [show sheetZero.height = (480 : ℝ) from rfl,
          show sheetZero.ctrLat = (0 : ℝ) from rfl,
          show radians 0 = 0 from by unfold radians; ring, Real.cos_zero]
        norm_num)

/-- C7 counterexample: two FixLines with IDENTICAL azimuth 45° but
different assumed latitudes (0° and 60°) have different fitted slopes
(−1 and −1/2) yet the same intercept, so the engine reports an
intersection for the pair — identical azimuth alone does not imply zero
intersections. -/
theorem c7_identical_azimuth_pair_intersects :
    lopParA.Zn = lopParB.Zn
    ∧ intersectionsOf sheetZero [lopParA, lopParB] ≠ [] := by
  have hs2ss : Real.sqrt 2 * Real.sqrt 2 = 2 := Real.mul_self_sqrt (by norm_num)
  have hs2pos : (0 : ℝ) < Real.sqrt 2 := Real.sqrt_pos.mpr (by norm_num)
  have hub : Real.sqrt 2 < 1.41422 := by
    nlinarith [hs2ss, hs2pos, sq_nonneg (Real.sqrt 2 - 1.41422)]
  have hlb : (1.41421 : ℝ) < Real.sqrt 2 := by
    nlinarith [hs2ss, hs2pos, sq_nonneg (Real.sqrt 2 - 1.41421)]
  have hrad0 : radians 0 = 0 := by
    unfold radians
    ring
  have hrad60 : radians 60 = Real.pi / 3 := by
    unfold radians
    ring
  have hcA : Real.cos (radians lopParA.aLat) ≠ 0 := by
    rw [show lopParA.aLat = (0 : ℝ) from rfl, hrad0, Real.cos_zero]
    norm_num
  have hzA : Real.cos lopParA.Zn ≠ 0 := by
    rw [show lopParA.Zn = Real.pi / 4 from rfl, Real.cos_pi_div_four]
    exact ne_of_gt (by positivity)
  have haA : lopParA.a ≠ 0 := by
    rw [show lopParA.a = (-4242.6 : ℝ) from rfl]
    norm_num
  have hcB : Real.cos (radians lopParB.aLat) ≠ 0 := by
    rw [show lopParB.aLat = (60 : ℝ) from rfl, hrad60, Real.cos_pi_div_three]
    norm_num
  have hzB : Real.cos lopParB.Zn ≠ 0 := by
    rw [show lopParB.Zn = Real.pi / 4 from rfl, Real.cos_pi_div_four]
    exact ne_of_gt (by positivity)
  have haB : lopParB.a ≠ 0 := by
    rw [show lopParB.a = (-4242.6 : ℝ) from rfl]
    norm_num
  have hmA : lopM lopParA = -1 := by
    rw [lopM_closed lopParA hzA haA, show lopParA.Zn = Real.pi / 4 from rfl,
      show lopParA.aLat = (0 : ℝ) from rfl, hrad0, Real.cos_zero,
      Real.sin_pi_div_four, Real.cos_pi_div_four]
    rw [one_mul, div_self (ne_of_gt (show (0 : ℝ) < Real.sqrt 2 / 2 from by positivity))]
  have hmB : lopM lopParB = -(1 / 2) := by
    rw [lopM_closed lopParB hzB haB, show lopParB.Zn = Real.pi / 4 from rfl,
      show lopParB.aLat = (60 : ℝ) from rfl, hrad60, Real.cos_pi_div_three,
      Real.sin_pi_div_four, Real.cos_pi_div_four]
    rw [mul_div_assoc,
      div_self (ne_of_gt (show (0 : ℝ) < Real.sqrt 2 / 2 from by positivity)), mul_one]
  have hbA : lopB lopParA = 100 - 70.71 * Real.sqrt 2 := by
    unfold lopB
    rw [hmA]
    unfold rhumbLatR rhumbLonR
    rw [show lopParA.aLat = (0 : ℝ) from rfl, show lopParA.aLon = (100 : ℝ) from rfl,
      show lopParA.Zn = Real.pi / 4 from rfl, show lopParA.a = (-4242.6 : ℝ) from rfl,
      hrad0, Real.cos_zero]
    rw [show Real.pi / 4 + 2 * Real.pi / 6 = Real.pi / 4 + Real.pi / 3 from by ring]
    rw [Real.cos_add, Real.sin_add, Real.cos_pi_div_four, Real.sin_pi_div_four,
      Real.cos_pi_div_three, Real.sin_pi_div_three]
    ring
  have hbB : lopB lopParB = 100 - 70.71 * Real.sqrt 2 := by
    unfold lopB
    rw [hmB]
    unfold rhumbLatR rhumbLonR
    rw [show lopParB.aLat = (60 : ℝ) from rfl, show lopParB.aLon = (80 : ℝ) from rfl,
      show lopParB.Zn = Real.pi / 4 from rfl, show lopParB.a = (-4242.6 : ℝ) from rfl,
      hrad60, Real.cos_pi_div_three]
    rw [show Real.pi / 4 + 2 * Real.pi / 6 = Real.pi / 4 + Real.pi / 3 from by ring]
    rw [Real.cos_add, Real.sin_add, Real.cos_pi_div_four, Real.sin_pi_div_four,
      Real.cos_pi_div_three, Real.sin_pi_div_three]
    ring
  have hlatS : latScaleOf sheetZero = 100 := by
    unfold latScaleOf
    rw [show sheetZero.height = (480 : ℝ) from rfl]
    norm_num
  have hlonS : lonScaleOf sheetZero = 100 := by
    unfold lonScaleOf
    rw [hlatS, show sheetZero.ctrLat = (0 : ℝ) from rfl, hrad0, Real.cos_zero]
    norm_num
  have hsome : (pairCandidate sheetZero
      (.fin (-1), .fin (100 - 70.71 * Real.sqrt 2))
      (.fin (-(1 / 2)), .fin (100 - 70.71 * Real.sqrt 2))).isSome = true := by
    simp only [pairCandidate]
    rw [JSVal.sub_fin, JSVal.sub_fin, sub_self,
      show (-1 : ℝ) - -(1 / 2) = -(1 / 2) from by norm_num,
      JSVal.div_fin _ _ (show (-(1 / 2) : ℝ) ≠ 0 from by norm_num),
      JSVal.mul_fin, JSVal.add_fin]
    simp only [JSVal.isNaN_fin, Bool.false_eq_true, if_false]
    simp only [projectJS]
    rw [JSVal.sub_fin, JSVal.sub_fin, JSVal.mul_fin, JSVal.mul_fin,
      JSVal.add_fin, JSVal.add_fin, hlonS, hlatS]
    split_ifs with hview
    · exfalso
      rw [JSVal.lt_fin, JSVal.lt_fin, JSVal.lt_fin, JSVal.lt_fin] at hview
      simp only [Bool.or_eq_true, decide_eq_true_eq] at hview
      rw [show sheetZero.width = (1000 : ℝ) from rfl,
        show sheetZero.height = (480 : ℝ) from rfl,
        show sheetZero.ctrLat = (0 : ℝ) from rfl,
        show sheetZero.ctrLon = (0 : ℝ) from rfl] at hview
      rcases hview with ((h | h) | h) | h <;> linarith [hlb, hub]
    · rfl
  obtain ⟨t, ht⟩ := Option.isSome_iff_exists.mp hsome
  refine ⟨rfl, ?_⟩
  unfold intersectionsOf
  rw [show ([lopParA, lopParB].map lopCoeffs) = [lopCoeffs lopParA, lopCoeffs lopParB]
    from by simp]
  rw [lopCoeffs_eq lopParA hcA (lopDeltaLon_ne lopParA hcA hzA haA),
    lopCoeffs_eq lopParB hcB (lopDeltaLon_ne lopParB hcB hzB haB), hmA, hmB, hbA, hbB]
  simp only [pairsOf, List.map_cons, List.map_nil, List.cons_append, List.nil_append,
    List.append_nil, List.filterMap_cons, List.filterMap_nil]
  rw [ht]
  simp

/-! ## The pointer-hover snap loop -/

theorem snapTarget_eq_findLast (mx my : ℝ) (ints : List Inter) :
    snapTarget mx my ints = ints.reverse.find? (within10 mx my) := by
  suffices h : ∀ acc : Option Inter,
      List.foldl (fun acc it =>
        if (mx - it.x) ^ 2 + (my - it.y) ^ 2 > 100 then acc else some it) acc ints
      = match ints.reverse.find? (within10 mx my) with
        | some it => some it
        | none => acc by
    have h2 := h none
    unfold snapTarget
    rw [h2]
    cases ints.reverse.find? (within10 mx my) <;> rfl
  intro acc
  induction ints generalizing acc with
  | nil => rfl
  | cons x t ih =>
    rw [List.foldl_cons, ih, List.reverse_cons, List.find?_append]
    cases hf : t.reverse.find? (within10 mx my) with
    | some y => simp
    | none =>
      by_cases hx : within10 mx my x = true
      · have hd : ¬((mx - x.x) ^ 2 + (my - x.y) ^ 2 > 100) := by
          simp [within10] at hx
          exact not_lt.mpr hx
        simp [hx, hd]
      · have hx' : within10 mx my x = false := eq_false_of_ne_true hx
        have hd : (mx - x.x) ^ 2 + (my - x.y) ^ 2 > 100 := by
          simp [within10] at hx'
          exact hx'
        simp [hx', hd]

/-- C2 (amended): whenever at least one intersection lies within 10 pixels
of the cursor, the readout shows the coordinates of the LAST such
intersection in the intersection list's order — the loop overwrites the
snap target on every within-radius hit, so a nearer but earlier
intersection loses — and with none within 10 pixels it shows the raw
cursor position converted to geographic coordinates. -/
theorem c2_readout_snaps_to_last_within_radius
    (latScale lonScale ctrLat ctrLon mx my : ℝ) (ints : List Inter) :
    displayedGeo latScale lonScale ctrLat ctrLon mx my ints
      = match ints.reverse.find? (within10 mx my) with
        | some it => (-it.y / latScale + ctrLat, it.x / lonScale + ctrLon)
        | none => (-my / latScale + ctrLat, mx / lonScale + ctrLon) := by
  unfold displayedGeo
  rw [snapTarget_eq_findLast]

/-- C2 counterexample: the cursor at (1, 0) has both recorded
intersections within 10 pixels; the one at the center is strictly nearer
(distance² 1 against 49), yet the readout reports the later one at
longitude 8, not the nearest. -/
theorem c2_readout_not_nearest :
    within10 1 0 interAtCenter = true
    ∧ within10 1 0 interRight = true
    ∧ (1 - interAtCenter.x) ^ 2 + (0 - interAtCenter.y) ^ 2
        < (1 - interRight.x) ^ 2 + (0 - interRight.y) ^ 2
    ∧ displayedGeo 1 1 0 0 1 0 [interAtCenter, interRight] = (0, 8)
    ∧ (-interAtCenter.y / 1 + 0, interAtCenter.x / 1 + 0) = ((0 : ℝ), (0 : ℝ))
    ∧ ((0 : ℝ), (8 : ℝ)) ≠ ((0 : ℝ), (0 : ℝ)) := by
  refine ⟨?_, ?_, ?_, ?_, ?_, ?_⟩
  · norm_num [within10, interAtCenter]
  · norm_num [within10, interRight]
  · norm_num [interAtCenter, interRight]
  · norm_num [displayedGeo, snapTarget, interAtCenter, interRight]
  · norm_num [interAtCenter]
  · norm_num [Prod.mk.injEq]

/-- C8: a parse failure is local to the field that produced it.  For every
state and every failing input text, the handler returns the state with
only that field's text and error flag (and, for draft fields, that field's
draft entry) changed: the stored center, the committed FixLines, the
intersections, the sheet frame and every other field are untouched. -/
theorem c8_parse_failure_locality (s : AppState) (t : String) (w h : ℝ) (dirT : Bool) :
    (parseIntegerLatitude t = none →
      updateCenterLatitudeS t w h s = { s with ctrLatErr := true, ctrLatText := t })
    ∧ (parseIntegerLongitude t = none →
      updateCenterLongitudeS t w h s = { s with ctrLonErr := true, ctrLonText := t })
    ∧ (jsTrim t.data ≠ [] → parseANum t = none →
      updateAS t dirT s = { s with aErr := true, draft.a := none, aText := t })
    ∧ (parseZnDeg t = none →
      updateZnS t s = { s with znErr := true, draft.Zn := none, znText := t })
    ∧ (parseIntegerLatitude t = none →
      updateALatS t s = { s with aLatErr := true, draft.aLat := none, aLatText := t })
    ∧ (parseIntegerLongitude t = none → parseLongitude t = none →
      updateALonS t s = { s with aLonErr := true, draft.aLon := none, aLonText := t }) := by
  refine ⟨?_, ?_, ?_, ?_, ?_, ?_⟩
  · intro hp
    simp [updateCenterLatitudeS, hp]
  · intro hp
    simp [updateCenterLongitudeS, hp]
  · intro hne hp
    simp [updateAS, String.toList, hne, hp]
  · intro hp
    have hne : jsTrim t.data ≠ [] := by
      intro hcon
      rw [show parseZnDeg t = some 0 from by simp [parseZnDeg, String.toList, hcon]] at hp
      simp at hp
    simp [updateZnS, String.toList, hne, hp]
  · intro hp
    simp [updateALatS, hp]
  · intro hp1 hp2
    simp [updateALonS, Option.orElse, hp1, hp2]

/-- C8 witness: the unparsable text x fails in the center-latitude field,
the distance field and the assumed-longitude field of the zero state, each
time flagging only its own field. -/
theorem c8_parse_failure_locality_witness :
    updateCenterLatitudeS "x" 0 0 stateZero
        = { stateZero with ctrLatErr := true, ctrLatText := "x" }
    ∧ updateAS "x" true stateZero
        = { stateZero with aErr := true, draft.a := none, aText := "x" }
    ∧ updateALonS "x" stateZero
        = { stateZero with aLonErr := true, draft.aLon := none, aLonText := "x" } :=
  ⟨(c8_parse_failure_locality stateZero "x" 0 0 true).1 (by decide),
   (c8_parse_failure_locality stateZero "x" 0 0 true).2.2.1 (by decide) (by decide),
   (c8_parse_failure_locality stateZero "x" 0 0 true).2.2.2.2.2 (by decide) (by decide)⟩

/-- C9: after every handler the sheet frame satisfies
lonScale = latScale × cos(center latitude).  The resize and redraw
handlers establish it unconditionally; every field handler preserves it
(the center handlers rederive both scales on success and change neither
scale nor center on failure, and the draft handlers never touch the
frame). -/
theorem c9_lonScale_always_derived :
    (∀ w h : ℝ, ∀ s : AppState, ScaleInvariant (setCanvasDimensionsS w h s))
    ∧ (∀ w h : ℝ, ∀ s : AppState, ScaleInvariant (redrawS w h s))
    ∧ (∀ t : String, ∀ w h : ℝ, ∀ s : AppState, ScaleInvariant s →
        ScaleInvariant (updateCenterLatitudeS t w h s))
    ∧ (∀ t : String, ∀ w h : ℝ, ∀ s : AppState, ScaleInvariant s →
        ScaleInvariant (updateCenterLongitudeS t w h s))
    ∧ (∀ t : String, ∀ dirT : Bool, ∀ s : AppState, ScaleInvariant s →
        ScaleInvariant (updateAS t dirT s))
    ∧ (∀ t : String, ∀ s : AppState, ScaleInvariant s → ScaleInvariant (updateZnS t s))
    ∧ (∀ t : String, ∀ s : AppState, ScaleInvariant s → ScaleInvariant (updateALatS t s))
    ∧ (∀ t : String, ∀ s : AppState, ScaleInvariant s →
        ScaleInvariant (updateALonS t s)) := by
  have hset : ∀ w h : ℝ, ∀ s : AppState, ScaleInvariant (setCanvasDimensionsS w h s) := by
    intro w h s
    simp [ScaleInvariant, setCanvasDimensionsS]
  have hred : ∀ w h : ℝ, ∀ s : AppState, ScaleInvariant (redrawS w h s) := by
    intro w h s
    simp [ScaleInvariant, redrawS, setCanvasDimensionsS]
  refine ⟨hset, hred, ?_, ?_, ?_, ?_, ?_, ?_⟩
  · intro t w h s hs
    cases hp : parseIntegerLatitude t with
    | none => simpa [updateCenterLatitudeS, hp, ScaleInvariant] using hs
    | some v =>
      simp only [updateCenterLatitudeS, hp]
      exact hred w h _
  · intro t w h s hs
    cases hp : parseIntegerLongitude t with
    | none => simpa [updateCenterLongitudeS, hp, ScaleInvariant] using hs
    | some v =>
      simp only [updateCenterLongitudeS, hp]
      exact hred w h _
  · intro t dirT s hs
    by_cases hne : jsTrim t.data = []
    · simpa [updateAS, String.toList, hne, ScaleInvariant] using hs
    · cases hp : parseANum t with
      | none => simpa [updateAS, String.toList, hne, hp, ScaleInvariant] using hs
      | some q => simpa [updateAS, String.toList, hne, hp, ScaleInvariant] using hs
  · intro t s hs
    by_cases hne : jsTrim t.data = []
    · simpa [updateZnS, String.toList, hne, ScaleInvariant] using hs
    · cases hp : parseZnDeg t with
      | none => simpa [updateZnS, String.toList, hne, hp, ScaleInvariant] using hs
      | some d => simpa [updateZnS, String.toList, hne, hp, ScaleInvariant] using hs
  · intro t s hs
    cases hp : parseIntegerLatitude t with
    | none => simpa [updateALatS, hp, ScaleInvariant] using hs
    | some v => simpa [updateALatS, hp, ScaleInvariant] using hs
  · intro t s hs
    cases hp : (parseIntegerLongitude t).orElse fun _ => parseLongitude t with
    | none => simpa [updateALonS, hp, ScaleInvariant] using hs
    | some v => simpa [updateALonS, hp, ScaleInvariant] using hs

/-- C9 witness: the invariant holds after a redraw of the zero state and
after a failing center edit of a state that already satisfies it. -/
theorem c9_lonScale_always_derived_witness :
    ScaleInvariant (redrawS 1000 480 stateZero)
    ∧ ScaleInvariant (updateCenterLatitudeS "x" 1000 480 stateInv) :=
  ⟨c9_lonScale_always_derived.2.1 1000 480 stateZero,
   c9_lonScale_always_derived.2.2.1 "x" 1000 480 stateInv
     (by simp [ScaleInvariant, stateInv, stateZero,
       show radians 0 = 0 from by unfold radians; ring])⟩

end UPS
